import Mathlib

/-!
# A verification development for the gts-rs Pokémon binary codec

This file shallowly embeds the Pokémon record codec of gts-rs
(`src/pkm_utils/pokemon.rs` together with the value types of
`src/pkm_utils/internal_types.rs`) into Lean 4 and proves, or refutes,
the spec claims about it.

Machine integers are embedded as `Nat` with explicit `% 2 ^ w` at the
points where the Rust code wraps or casts; byte buffers (`Vec<u8>`)
are embedded as a length together with a byte-valued index function;
Rust panics (`assert!`, `should_be_some!`, `should_be_ok!`,
`should_not_happen!`, out-of-bounds indexing) are embedded as `none` of
an `Option`-valued result.

The JSON data tables (`data/*.json`) are not part of the sources; the
codec consults them only through lookup operations, so they are
abstracted into a `Tables` record, modelled from the spec (§4.1).
-/

namespace GtsRs

/-- A byte buffer: a shallow embedding of Rust's `Vec<u8>` as its length
together with the byte stored at each index.  Indices at or beyond `size`
are unused by the codec. -/
@[ext]
structure Buffer where
  size : Nat
  data : Nat → Nat

/-- `vec![0x00; n]`: the all-zero buffer of a given length. -/
def Buffer.zeros (n : Nat) : Buffer := ⟨n, fun _ => 0⟩

/-- `bytes[off] = v`. -/
def writeByte (b : Buffer) (off v : Nat) : Buffer :=
  ⟨b.size, fun i => if i = off then v else b.data i⟩

/-- `bytes[off..off + src.len()].copy_from_slice(&src)`. -/
def writeBytes (b : Buffer) (off : Nat) (src : List Nat) : Buffer :=
  ⟨b.size, fun i => if off ≤ i ∧ i < off + src.length then src.getD (i - off) 0 else b.data i⟩

/-- `u16::from_le_bytes([bytes[i], bytes[i + 1]])`.  The bytes are `u8`
values, so no wrapping occurs in the source. -/
def readU16 (b : Buffer) (i : Nat) : Nat := b.data i + 2 ^ 8 * b.data (i + 1)

/-- `u32::from_le_bytes([bytes[i], .., bytes[i + 3]])`. -/
def readU32 (b : Buffer) (i : Nat) : Nat :=
  b.data i + 2 ^ 8 * b.data (i + 1) + 2 ^ 16 * b.data (i + 2) + 2 ^ 24 * b.data (i + 3)

/-- `(v : u16).to_le_bytes()`. -/
def u16ToLe (v : Nat) : List Nat := [v % 2 ^ 8, v / 2 ^ 8 % 2 ^ 8]

/-- `(v : u32).to_le_bytes()`. -/
def u32ToLe (v : Nat) : List Nat :=
  [v % 2 ^ 8, v / 2 ^ 8 % 2 ^ 8, v / 2 ^ 16 % 2 ^ 8, v / 2 ^ 24 % 2 ^ 8]

/-- `bytes[lo..hi]`, extracted as a list. -/
def Buffer.slice (b : Buffer) (lo hi : Nat) : List Nat :=
  (List.range (hi - lo)).map fun i => b.data (lo + i)

/-- `Vec::resize(n, 0)`: truncate or zero-pad to exactly `n` elements. -/
def listResize (l : List Nat) (n : Nat) : List Nat :=
  l.take n ++ List.replicate (n - l.length) 0

-- Games' internal representation constants (`pokemon.rs`):
def BOXED_PKM_LEN : Nat := 0x88
def GEN4_PKM_LEN : Nat := 0xEC
def GEN5_PKM_LEN : Nat := 0xDC

/-! ## The LCG-XOR stream cipher and the PID-seeded block shuffle
(`Pokemon::encryption_step`, `crypt_data`, `shuffle_blocks`,
`unshuffle_blocks`, `determine_shuffle_block_order`,
`to_encrypted_data`, `to_decrypted_data`, `to_encryption_bypass_data`). -/

/-- One update of the linear congruential generator used by
`Pokemon::encryption_step`:
`state = (state.wrapping_mul(0x41C64E6D) + 0x6073) & 0xFFFFFFFF`. -/
def lcg (state : Nat) : Nat := (state * 0x41C64E6D + 0x6073) % 2 ^ 32

/-- The LCG state after `n` updates from `seed`. -/
def lcgState (seed : Nat) : Nat → Nat
  | 0 => seed
  | n + 1 => lcg (lcgState seed n)

/-- `Pokemon::encryption_step(&mut data[lo..hi], seed)`, given pointwise:
the slice is read as little-endian 16-bit words, word `j` is XORed with
`(state_(j+1) >> 16) as u16`, and the words are written back.  Each output
byte depends only on the two bytes of its own word and on the key stream,
which is what this index-function form records. -/
def encryption_step (b : Buffer) (lo hi seed : Nat) : Buffer :=
  ⟨b.size, fun i =>
    if lo ≤ i ∧ i < hi then
      let j := (i - lo) / 2
      let w := readU16 b (lo + 2 * j)
      let w' := w ^^^ ((lcgState seed (j + 1)) >>> 16)
      if (i - lo) % 2 = 0 then w' % 2 ^ 8 else w' / 2 ^ 8
    else b.data i⟩

/-- The hard-coded table of the 24 block orders in
`Pokemon::determine_shuffle_block_order`. -/
def possible_orders : List (List Nat) :=
  [ [0, 1, 2, 3], [0, 1, 3, 2], [0, 2, 1, 3], [0, 2, 3, 1], [0, 3, 1, 2], [0, 3, 2, 1],
    [1, 0, 2, 3], [1, 0, 3, 2], [1, 2, 0, 3], [1, 2, 3, 0], [1, 3, 0, 2], [1, 3, 2, 0],
    [2, 0, 1, 3], [2, 0, 3, 1], [2, 1, 0, 3], [2, 1, 3, 0], [2, 3, 0, 1], [2, 3, 1, 0],
    [3, 0, 1, 2], [3, 0, 2, 1], [3, 1, 0, 2], [3, 1, 2, 0], [3, 2, 0, 1], [3, 2, 1, 0] ]

/-- `Pokemon::determine_shuffle_block_order(pid)`:
entry `((pid >> 13) & 0x1F) % 24` of the hard-coded order table. -/
def determine_shuffle_block_order (pid : Nat) : List Nat :=
  possible_orders.getD (((pid >>> 13) &&& 0x1F) % 24) []

/-- The position of block `j` in a shuffle order, i.e. the `i` with
`ord[i] = j` (for the orders of `possible_orders`).  Used to express the
reverse memcpy of `Pokemon::unshuffle_blocks` pointwise. -/
def orderPos (ord : List Nat) (j : Nat) : Nat :=
  if ord.getD 0 0 = j then 0
  else if ord.getD 1 0 = j then 1
  else if ord.getD 2 0 = j then 2
  else 3

/-- `Pokemon::shuffle_blocks`: the four 32-byte blocks at `0x08..0x88`
are permuted so that destination block `i` receives source block
`ord[i]`; all other bytes stay in place. -/
def shuffle_blocks (b : Buffer) (pid : Nat) : Buffer :=
  let ord := determine_shuffle_block_order pid
  ⟨b.size, fun i =>
    if 8 ≤ i ∧ i < 0x88 then
      b.data (8 + ord.getD ((i - 8) / 0x20) 0 * 0x20 + (i - 8) % 0x20)
    else b.data i⟩

/-- `Pokemon::unshuffle_blocks`: the opposite memcpy to `shuffle_blocks`
(destination block `ord[i]` receives source block `i`); read pointwise,
destination block `j` receives source block `orderPos ord j`. -/
def unshuffle_blocks (b : Buffer) (pid : Nat) : Buffer :=
  let ord := determine_shuffle_block_order pid
  ⟨b.size, fun i =>
    if 8 ≤ i ∧ i < 0x88 then
      b.data (8 + orderPos ord ((i - 8) / 0x20) * 0x20 + (i - 8) % 0x20)
    else b.data i⟩

/-- `Pokemon::crypt_data`: encrypt `0x08..0x88` with the checksum as seed,
and the party tail (when present) with the PID as seed. -/
def crypt_data (b : Buffer) (pid checksum : Nat) : Buffer :=
  let b1 := encryption_step b 0x8 BOXED_PKM_LEN checksum
  if BOXED_PKM_LEN < b1.size then encryption_step b1 BOXED_PKM_LEN b1.size pid else b1

/-- `Pokemon::to_encrypted_data`: read PID and checksum from the plaintext
record, shuffle the blocks, then XOR-encrypt.  The length `assert!` is
embedded as `none`. -/
def to_encrypted_data (d : Buffer) : Option Buffer :=
  if d.size < BOXED_PKM_LEN then none
  else
    let pid := readU32 d 0x00
    let checksum := d.data 0x06 + (d.data 0x07 <<< 8)
    some (crypt_data (shuffle_blocks d pid) pid checksum)

/-- `Pokemon::to_decrypted_data`: read PID and checksum, XOR-decrypt, then
unshuffle the blocks. -/
def to_decrypted_data (e : Buffer) : Option Buffer :=
  if e.size < BOXED_PKM_LEN then none
  else
    let pid := readU32 e 0x00
    let checksum := e.data 0x06 + (e.data 0x07 <<< 8)
    some (unshuffle_blocks (crypt_data e pid checksum) pid)

/-- `Pokemon::to_encryption_bypass_data`: shuffle the blocks without
XOR-encrypting, then set `encrypted_data[0x04] |= 0x03`. -/
def to_encryption_bypass_data (d : Buffer) : Option Buffer :=
  if d.size < BOXED_PKM_LEN then none
  else
    let pid := readU32 d 0x00
    let e := shuffle_blocks d pid
    some (writeByte e 0x04 (e.data 0x04 ||| 0x03))

/-- The lexicographic list of the 24 orderings of `(0, 1, 2, 3)`,
generated in lexicographic order (the spec's canonical permutation
table). -/
def lexOrders : List (List Nat) :=
  (List.range 4).flatMap fun a =>
    (List.range 4).flatMap fun b =>
      (List.range 4).flatMap fun c =>
        (List.range 4).flatMap fun d =>
          if a ≠ b ∧ a ≠ c ∧ a ≠ d ∧ b ≠ c ∧ b ≠ d ∧ c ≠ d then [[a, b, c, d]] else []

/-- Claim C5, counterexample: the claim asserts
`determine_shuffle_block_order(0x0001A000) = [1, 2, 3, 0]`.  The
permutation index is indeed `13`, but entry 13 of the lexicographic table
is `[2, 0, 3, 1]` (entry 9 is `[1, 2, 3, 0]`), so the claimed value is
wrong. -/
theorem c5_counterexample :
    ((0x0001A000 >>> 13) &&& 0x1F) % 24 = 13 ∧
      determine_shuffle_block_order 0x0001A000 ≠ [1, 2, 3, 0] := by
  constructor <;> decide

/-- Claim C5 (amended): `determine_shuffle_block_order` selects entry
`((pid >> 13) & 0x1F) mod 24` of the lexicographic list of the 24
orderings of `(0,1,2,3)`; in particular the order for PID `0x00000000` is
`[0,1,2,3]` and the order for PID `0x0001A000` (permutation index 13) is
`[2,0,3,1]`. -/
theorem c5_shuffle_order_lexicographic (pid : Nat) :
    determine_shuffle_block_order pid =
        lexOrders.getD (((pid >>> 13) &&& 0x1F) % 24) [] ∧
      determine_shuffle_block_order 0x00000000 = [0, 1, 2, 3] ∧
      determine_shuffle_block_order 0x0001A000 = [2, 0, 3, 1] := by
  refine ⟨?_, by decide, by decide⟩
  have h : ∀ k, k < 24 → possible_orders.getD k [] = lexOrders.getD k [] := by decide
  have hk : ((pid >>> 13) &&& 0x1F) % 24 < 24 := Nat.mod_lt _ (by norm_num)
  exact h _ hk

/-! ## Lemmas about the cipher and the shuffle -/

theorem encryption_step_size (b : Buffer) (lo hi s : Nat) :
    (encryption_step b lo hi s).size = b.size := rfl

theorem shuffle_blocks_size (b : Buffer) (pid : Nat) :
    (shuffle_blocks b pid).size = b.size := rfl

theorem unshuffle_blocks_size (b : Buffer) (pid : Nat) :
    (unshuffle_blocks b pid).size = b.size := rfl

theorem encryption_step_data_in (b : Buffer) (lo hi seed i : Nat)
    (h1 : lo ≤ i) (h2 : i < hi) :
    (encryption_step b lo hi seed).data i =
      (if (i - lo) % 2 = 0
        then (readU16 b (lo + 2 * ((i - lo) / 2)) ^^^
          (lcgState seed ((i - lo) / 2 + 1) >>> 16)) % 2 ^ 8
        else (readU16 b (lo + 2 * ((i - lo) / 2)) ^^^
          (lcgState seed ((i - lo) / 2 + 1) >>> 16)) / 2 ^ 8) := by
  simp only [encryption_step]
  rw [if_pos ⟨h1, h2⟩]

theorem encryption_step_data_out (b : Buffer) (lo hi seed i : Nat)
    (h : ¬(lo ≤ i ∧ i < hi)) :
    (encryption_step b lo hi seed).data i = b.data i := by
  simp only [encryption_step]
  rw [if_neg h]

/-- Reading back word `j` of an encrypted region recovers the plaintext
word XORed with key `j`. -/
theorem encryption_step_word (b : Buffer) (lo hi seed j : Nat)
    (h2 : lo + 2 * j + 1 < hi) :
    readU16 (encryption_step b lo hi seed) (lo + 2 * j) =
      readU16 b (lo + 2 * j) ^^^ (lcgState seed (j + 1) >>> 16) := by
  have e1 := encryption_step_data_in b lo hi seed (lo + 2 * j) (by omega) (by omega)
  have e2 := encryption_step_data_in b lo hi seed (lo + 2 * j + 1) (by omega) h2
  rw [(by omega : (lo + 2 * j - lo) / 2 = j),
    (by omega : (lo + 2 * j - lo) % 2 = 0)] at e1
  rw [(by omega : (lo + 2 * j + 1 - lo) / 2 = j),
    (by omega : (lo + 2 * j + 1 - lo) % 2 = 1)] at e2
  rw [if_pos (rfl : (0 : Nat) = 0)] at e1
  rw [if_neg (by omega : ¬((1 : Nat) = 0))] at e2
  show (encryption_step b lo hi seed).data (lo + 2 * j) +
      2 ^ 8 * (encryption_step b lo hi seed).data (lo + 2 * j + 1) = _
  rw [e1, e2]
  exact Nat.mod_add_div _ _

/-- The XOR stream cipher is an involution on even-length regions of
byte-valued buffers. -/
theorem encryption_step_involutive (b : Buffer) (lo hi seed : Nat)
    (hpar : (hi - lo) % 2 = 0)
    (hbound : ∀ i, lo ≤ i → i < hi → b.data i < 2 ^ 8) :
    encryption_step (encryption_step b lo hi seed) lo hi seed = b := by
  refine Buffer.ext rfl (funext fun i => ?_)
  by_cases hin : lo ≤ i ∧ i < hi
  · obtain ⟨j, r, hr, rfl⟩ : ∃ j r, r < 2 ∧ i = lo + 2 * j + r :=
      ⟨(i - lo) / 2, (i - lo) % 2, by omega, by omega⟩
    have hj1 : lo + 2 * j + 1 < hi := by omega
    rw [encryption_step_data_in _ _ _ _ _ (by omega) (by omega)]
    rw [(by omega : (lo + 2 * j + r - lo) / 2 = j),
      (by omega : (lo + 2 * j + r - lo) % 2 = r)]
    rw [encryption_step_word b lo hi seed j hj1]
    rw [Nat.xor_assoc, Nat.xor_self, Nat.xor_zero]
    have hb1 := hbound (lo + 2 * j) (by omega) (by omega)
    have hb2 := hbound (lo + 2 * j + 1) (by omega) hj1
    simp only [readU16]
    split
    · rename_i h0
      subst h0
      simp only [Nat.add_zero]
      omega
    · rename_i h0
      have h1 : r = 1 := by omega
      subst h1
      omega
  · rw [encryption_step_data_out _ _ _ _ _ hin, encryption_step_data_out _ _ _ _ _ hin]

/-- The two cipher passes of `crypt_data` act on disjoint regions, so
they commute. -/
theorem encryption_step_comm (b : Buffer) (lo1 hi1 s1 lo2 hi2 s2 : Nat)
    (hd : hi1 ≤ lo2) (hpar1 : (hi1 - lo1) % 2 = 0) :
    encryption_step (encryption_step b lo1 hi1 s1) lo2 hi2 s2 =
      encryption_step (encryption_step b lo2 hi2 s2) lo1 hi1 s1 := by
  refine Buffer.ext rfl (funext fun i => ?_)
  by_cases hin2 : lo2 ≤ i ∧ i < hi2
  · have hni1 : ¬(lo1 ≤ i ∧ i < hi1) := by omega
    rw [encryption_step_data_in _ _ _ _ _ hin2.1 hin2.2,
      encryption_step_data_out _ _ _ _ _ hni1,
      encryption_step_data_in _ _ _ _ _ hin2.1 hin2.2]
    have r1 : ¬(lo1 ≤ lo2 + 2 * ((i - lo2) / 2) ∧ lo2 + 2 * ((i - lo2) / 2) < hi1) := by omega
    have r2 : ¬(lo1 ≤ lo2 + 2 * ((i - lo2) / 2) + 1 ∧
        lo2 + 2 * ((i - lo2) / 2) + 1 < hi1) := by omega
    simp only [readU16]
    rw [encryption_step_data_out _ _ _ _ _ r1, encryption_step_data_out _ _ _ _ _ r2]
  · by_cases hin1 : lo1 ≤ i ∧ i < hi1
    · rw [encryption_step_data_out _ _ _ _ _ hin2,
        encryption_step_data_in _ _ _ _ _ hin1.1 hin1.2,
        encryption_step_data_in _ _ _ _ _ hin1.1 hin1.2]
      have r1 : ¬(lo2 ≤ lo1 + 2 * ((i - lo1) / 2) ∧ lo1 + 2 * ((i - lo1) / 2) < hi2) := by
        omega
      have r2 : ¬(lo2 ≤ lo1 + 2 * ((i - lo1) / 2) + 1 ∧
          lo1 + 2 * ((i - lo1) / 2) + 1 < hi2) := by omega
      simp only [readU16]
      rw [encryption_step_data_out _ _ _ _ _ r1, encryption_step_data_out _ _ _ _ _ r2]
    · rw [encryption_step_data_out _ _ _ _ _ hin2,
        encryption_step_data_out _ _ _ _ _ hin1,
        encryption_step_data_out _ _ _ _ _ hin1,
        encryption_step_data_out _ _ _ _ _ hin2]

theorem encryption_step_bound (b : Buffer) (lo hi s : Nat)
    (hb : ∀ i, lo ≤ i → i < hi → b.data i < 2 ^ 8)
    (hpar : (hi - lo) % 2 = 0) :
    ∀ i, lo ≤ i → i < hi → (encryption_step b lo hi s).data i < 2 ^ 8 := by
  intro i h1 h2
  rw [encryption_step_data_in _ _ _ _ _ h1 h2]
  have b1 := hb (lo + 2 * ((i - lo) / 2)) (by omega) (by omega)
  have b2 := hb (lo + 2 * ((i - lo) / 2) + 1) (by omega) (by omega)
  have hw : readU16 b (lo + 2 * ((i - lo) / 2)) < 2 ^ 16 := by
    simp only [readU16]
    omega
  have hst : lcgState s ((i - lo) / 2 + 1) < 2 ^ 32 := by
    show lcg _ < 2 ^ 32
    exact Nat.mod_lt _ (by norm_num)
  have hk : lcgState s ((i - lo) / 2 + 1) >>> 16 < 2 ^ 16 := by
    rw [Nat.shiftRight_eq_div_pow]
    omega
  have hx : readU16 b (lo + 2 * ((i - lo) / 2)) ^^^
      (lcgState s ((i - lo) / 2 + 1) >>> 16) < 2 ^ 16 :=
    Nat.xor_lt_two_pow hw hk
  split
  · exact Nat.mod_lt _ (by norm_num)
  · omega

theorem shuffle_blocks_data_out (b : Buffer) (pid i : Nat) (h : ¬(8 ≤ i ∧ i < 0x88)) :
    (shuffle_blocks b pid).data i = b.data i := by
  simp only [shuffle_blocks]
  rw [if_neg h]

theorem unshuffle_blocks_data_out (b : Buffer) (pid i : Nat) (h : ¬(8 ≤ i ∧ i < 0x88)) :
    (unshuffle_blocks b pid).data i = b.data i := by
  simp only [unshuffle_blocks]
  rw [if_neg h]

theorem orderPos_le (ord : List Nat) (j : Nat) : orderPos ord j ≤ 3 := by
  unfold orderPos
  repeat' split
  all_goals omega

/-- Each of the 24 hard-coded block orders is a permutation of
`(0, 1, 2, 3)`: looking a block up by its position, or a position up by
its block, are mutually inverse, and every entry is below 4. -/
theorem possible_orders_inverse : ∀ k, k < 24 → ∀ j, j < 4 →
    (possible_orders.getD k []).getD (orderPos (possible_orders.getD k []) j) 0 = j ∧
    orderPos (possible_orders.getD k []) ((possible_orders.getD k []).getD j 0) = j ∧
    (possible_orders.getD k []).getD j 0 < 4 := by decide

theorem determine_shuffle_block_order_eq (pid : Nat) :
    determine_shuffle_block_order pid =
      possible_orders.getD (((pid >>> 13) &&& 0x1F) % 24) [] := rfl

theorem shuffle_index_lt (pid : Nat) :
    ((pid >>> 13) &&& 0x1F) % 24 < 24 := Nat.mod_lt _ (by norm_num)

/-- `unshuffle_blocks` inverts `shuffle_blocks`. -/
theorem unshuffle_shuffle (b : Buffer) (pid : Nat) :
    unshuffle_blocks (shuffle_blocks b pid) pid = b := by
  refine Buffer.ext rfl (funext fun i => ?_)
  by_cases hin : 8 ≤ i ∧ i < 0x88
  · have hinv := possible_orders_inverse _ (shuffle_index_lt pid) ((i - 8) / 0x20) (by omega)
    simp only [unshuffle_blocks, shuffle_blocks, determine_shuffle_block_order_eq]
    rw [if_pos hin]
    have hple : orderPos (possible_orders.getD (((pid >>> 13) &&& 0x1F) % 24) [])
        ((i - 8) / 0x20) ≤ 3 := orderPos_le _ _
    rw [if_pos (by omega : 8 ≤ 8 + orderPos (possible_orders.getD (((pid >>> 13) &&& 0x1F) % 24) [])
        ((i - 8) / 0x20) * 0x20 + (i - 8) % 0x20 ∧
        8 + orderPos (possible_orders.getD (((pid >>> 13) &&& 0x1F) % 24) [])
        ((i - 8) / 0x20) * 0x20 + (i - 8) % 0x20 < 0x88)]
    rw [(by omega : (8 + orderPos (possible_orders.getD (((pid >>> 13) &&& 0x1F) % 24) [])
        ((i - 8) / 0x20) * 0x20 + (i - 8) % 0x20 - 8) / 0x20 =
        orderPos (possible_orders.getD (((pid >>> 13) &&& 0x1F) % 24) []) ((i - 8) / 0x20)),
      (by omega : (8 + orderPos (possible_orders.getD (((pid >>> 13) &&& 0x1F) % 24) [])
        ((i - 8) / 0x20) * 0x20 + (i - 8) % 0x20 - 8) % 0x20 = (i - 8) % 0x20)]
    rw [hinv.1]
    congr 1
    omega
  · rw [unshuffle_blocks_data_out _ _ _ hin, shuffle_blocks_data_out _ _ _ hin]

/-- `shuffle_blocks` inverts `unshuffle_blocks`. -/
theorem shuffle_unshuffle (b : Buffer) (pid : Nat) :
    shuffle_blocks (unshuffle_blocks b pid) pid = b := by
  refine Buffer.ext rfl (funext fun i => ?_)
  by_cases hin : 8 ≤ i ∧ i < 0x88
  · have hinv := possible_orders_inverse _ (shuffle_index_lt pid) ((i - 8) / 0x20) (by omega)
    simp only [unshuffle_blocks, shuffle_blocks, determine_shuffle_block_order_eq]
    rw [if_pos hin]
    have hble : (possible_orders.getD (((pid >>> 13) &&& 0x1F) % 24) []).getD
        ((i - 8) / 0x20) 0 < 4 := hinv.2.2
    rw [if_pos (by omega : 8 ≤ 8 + (possible_orders.getD (((pid >>> 13) &&& 0x1F) % 24) []).getD
        ((i - 8) / 0x20) 0 * 0x20 + (i - 8) % 0x20 ∧
        8 + (possible_orders.getD (((pid >>> 13) &&& 0x1F) % 24) []).getD
        ((i - 8) / 0x20) 0 * 0x20 + (i - 8) % 0x20 < 0x88)]
    rw [(by omega : (8 + (possible_orders.getD (((pid >>> 13) &&& 0x1F) % 24) []).getD
        ((i - 8) / 0x20) 0 * 0x20 + (i - 8) % 0x20 - 8) / 0x20 =
        (possible_orders.getD (((pid >>> 13) &&& 0x1F) % 24) []).getD ((i - 8) / 0x20) 0),
      (by omega : (8 + (possible_orders.getD (((pid >>> 13) &&& 0x1F) % 24) []).getD
        ((i - 8) / 0x20) 0 * 0x20 + (i - 8) % 0x20 - 8) % 0x20 = (i - 8) % 0x20)]
    rw [hinv.2.1]
    congr 1
    omega
  · rw [shuffle_blocks_data_out _ _ _ hin, unshuffle_blocks_data_out _ _ _ hin]

/-- The shuffle permutes bytes of the buffer, so byte bounds are
preserved. -/
theorem shuffle_blocks_bound (b : Buffer) (pid : Nat) (hsz : 0x88 ≤ b.size)
    (hb : ∀ i, i < b.size → b.data i < 2 ^ 8) :
    ∀ i, i < b.size → (shuffle_blocks b pid).data i < 2 ^ 8 := by
  intro i hi
  by_cases hin : 8 ≤ i ∧ i < 0x88
  · have hble := (possible_orders_inverse _ (shuffle_index_lt pid) ((i - 8) / 0x20)
      (by omega)).2.2
    simp only [shuffle_blocks, determine_shuffle_block_order_eq]
    rw [if_pos hin]
    exact hb _ (by omega)
  · rw [shuffle_blocks_data_out _ _ _ hin]
    exact hb i hi

theorem crypt_data_size (b : Buffer) (pid ck : Nat) : (crypt_data b pid ck).size = b.size := by
  simp only [crypt_data, encryption_step_size]
  split <;> rfl

theorem crypt_data_data_lt8 (b : Buffer) (pid ck i : Nat) (h : i < 8) :
    (crypt_data b pid ck).data i = b.data i := by
  simp only [crypt_data, BOXED_PKM_LEN, encryption_step_size]
  split
  · rw [encryption_step_data_out _ _ _ _ _ (by omega),
      encryption_step_data_out _ _ _ _ _ (by omega)]
  · rw [encryption_step_data_out _ _ _ _ _ (by omega)]

/-- `crypt_data` is an involution on byte-valued buffers of even party
length. -/
theorem crypt_data_involutive (b : Buffer) (pid ck : Nat)
    (hsz : BOXED_PKM_LEN ≤ b.size) (hpar : (b.size - BOXED_PKM_LEN) % 2 = 0)
    (hb : ∀ i, i < b.size → b.data i < 2 ^ 8) :
    crypt_data (crypt_data b pid ck) pid ck = b := by
  have hb1 : ∀ i, 0x8 ≤ i → i < 0x88 → b.data i < 2 ^ 8 := fun i h1 h2 => by
    apply hb
    unfold BOXED_PKM_LEN at hsz
    omega
  have hb2 : ∀ i, 0x88 ≤ i → i < b.size → b.data i < 2 ^ 8 := fun i h1 h2 => hb i h2
  have hpar1 : ((0x88 : Nat) - 0x8) % 2 = 0 := by norm_num
  simp only [crypt_data, BOXED_PKM_LEN, encryption_step_size]
  unfold BOXED_PKM_LEN at hsz hpar
  by_cases hlt : 0x88 < b.size
  · rw [if_pos hlt]
    simp only [encryption_step_size]
    rw [if_pos hlt]
    rw [← encryption_step_comm (encryption_step b 0x8 0x88 ck) 0x8 0x88 ck 0x88 b.size pid
      (by omega) hpar1]
    rw [encryption_step_involutive b 0x8 0x88 ck hpar1 hb1]
    exact encryption_step_involutive b 0x88 b.size pid hpar hb2
  · rw [if_neg hlt]
    simp only [encryption_step_size]
    rw [if_neg hlt]
    exact encryption_step_involutive b 0x8 0x88 ck hpar1 hb1

theorem crypt_data_bound (b : Buffer) (pid ck : Nat)
    (hsz : BOXED_PKM_LEN ≤ b.size) (hpar : (b.size - BOXED_PKM_LEN) % 2 = 0)
    (hb : ∀ i, i < b.size → b.data i < 2 ^ 8) :
    ∀ i, i < b.size → (crypt_data b pid ck).data i < 2 ^ 8 := by
  intro i hi
  simp only [crypt_data, BOXED_PKM_LEN, encryption_step_size]
  unfold BOXED_PKM_LEN at hsz hpar
  have hstep1 : ∀ i, i < b.size → (encryption_step b 0x8 0x88 ck).data i < 2 ^ 8 := by
    intro i hi
    by_cases hin : 0x8 ≤ i ∧ i < 0x88
    · exact encryption_step_bound b 0x8 0x88 ck (fun i h1 h2 => hb i (by omega)) (by norm_num)
        i hin.1 hin.2
    · rw [encryption_step_data_out _ _ _ _ _ hin]
      exact hb i hi
  split
  · by_cases hin : 0x88 ≤ i ∧ i < b.size
    · exact encryption_step_bound _ 0x88 b.size pid
        (fun i h1 h2 => hstep1 i h2) (by omega) i hin.1 hin.2
    · rw [encryption_step_data_out _ _ _ _ _ (by omega)]
      exact hstep1 i hi
  · exact hstep1 i hi

/-- Claim C2 (confirmed): for every 236-byte (and every 220-byte) byte
buffer `B`, `to_decrypted_data (to_encrypted_data B) = B` and
`to_encrypted_data (to_decrypted_data B) = B` — the shuffle-then-XOR
encryption and the XOR-then-unshuffle decryption are mutually inverse.
(The PID and checksum seeds are read from bytes `0x00..0x08`, which both
passes leave untouched, so the inverse pass re-derives the same seeds.) -/
theorem c2_cipher_involution (b : Buffer)
    (hsize : b.size = GEN4_PKM_LEN ∨ b.size = GEN5_PKM_LEN)
    (hbytes : ∀ i, i < b.size → b.data i < 2 ^ 8) :
    (to_encrypted_data b).bind to_decrypted_data = some b ∧
    (to_decrypted_data b).bind to_encrypted_data = some b := by
  have hsz1 : BOXED_PKM_LEN ≤ b.size := by
    unfold BOXED_PKM_LEN GEN4_PKM_LEN GEN5_PKM_LEN at *
    rcases hsize with h | h <;> omega
  have hpar : (b.size - BOXED_PKM_LEN) % 2 = 0 := by
    unfold BOXED_PKM_LEN GEN4_PKM_LEN GEN5_PKM_LEN at *
    rcases hsize with h | h <;> omega
  have hnlt : ¬(b.size < BOXED_PKM_LEN) := by omega
  have hsz88 : (0x88 : Nat) ≤ b.size := hsz1
  constructor
  · unfold to_encrypted_data
    rw [if_neg hnlt]
    show to_decrypted_data (crypt_data (shuffle_blocks b (readU32 b 0x00)) (readU32 b 0x00)
      (b.data 0x06 + (b.data 0x07 <<< 8))) = some b
    set pid := readU32 b 0x00 with hpid
    set ck := b.data 0x06 + (b.data 0x07 <<< 8) with hck
    set E := crypt_data (shuffle_blocks b pid) pid ck with hE
    have hEsize : E.size = b.size := by rw [hE, crypt_data_size, shuffle_blocks_size]
    have hE8 : ∀ i, i < 8 → E.data i = b.data i := by
      intro i hi
      rw [hE, crypt_data_data_lt8 _ _ _ _ hi, shuffle_blocks_data_out _ _ _ (by omega)]
    unfold to_decrypted_data
    rw [if_neg (by rw [hEsize]; exact hnlt)]
    show some (unshuffle_blocks (crypt_data E (readU32 E 0x00)
      (E.data 0x06 + (E.data 0x07 <<< 8))) (readU32 E 0x00)) = some b
    have hpidE : readU32 E 0x00 = pid := by
      rw [hpid]
      simp only [readU32]
      rw [hE8 0x00 (by norm_num), hE8 (0x00 + 1) (by norm_num), hE8 (0x00 + 2) (by norm_num),
        hE8 (0x00 + 3) (by norm_num)]
    have hckE : E.data 0x06 + (E.data 0x07 <<< 8) = ck := by
      rw [hck, hE8 0x06 (by norm_num), hE8 0x07 (by norm_num)]
    rw [hpidE, hckE, hE]
    rw [crypt_data_involutive (shuffle_blocks b pid) pid ck
      (by rw [shuffle_blocks_size]; exact hsz1)
      (by rw [shuffle_blocks_size]; exact hpar)
      (fun i hi => shuffle_blocks_bound b pid hsz88 hbytes i
        (by rw [shuffle_blocks_size] at hi; exact hi))]
    rw [unshuffle_shuffle]
  · unfold to_decrypted_data
    rw [if_neg hnlt]
    show to_encrypted_data (unshuffle_blocks (crypt_data b (readU32 b 0x00)
      (b.data 0x06 + (b.data 0x07 <<< 8))) (readU32 b 0x00)) = some b
    set pid := readU32 b 0x00 with hpid
    set ck := b.data 0x06 + (b.data 0x07 <<< 8) with hck
    set D := unshuffle_blocks (crypt_data b pid ck) pid with hD
    have hDsize : D.size = b.size := by rw [hD, unshuffle_blocks_size, crypt_data_size]
    have hD8 : ∀ i, i < 8 → D.data i = b.data i := by
      intro i hi
      rw [hD, unshuffle_blocks_data_out _ _ _ (by omega), crypt_data_data_lt8 _ _ _ _ hi]
    unfold to_encrypted_data
    rw [if_neg (by rw [hDsize]; exact hnlt)]
    show some (crypt_data (shuffle_blocks D (readU32 D 0x00)) (readU32 D 0x00)
      (D.data 0x06 + (D.data 0x07 <<< 8))) = some b
    have hpidD : readU32 D 0x00 = pid := by
      rw [hpid]
      simp only [readU32]
      rw [hD8 0x00 (by norm_num), hD8 (0x00 + 1) (by norm_num), hD8 (0x00 + 2) (by norm_num),
        hD8 (0x00 + 3) (by norm_num)]
    have hckD : D.data 0x06 + (D.data 0x07 <<< 8) = ck := by
      rw [hck, hD8 0x06 (by norm_num), hD8 0x07 (by norm_num)]
    rw [hpidD, hckD, hD]
    rw [shuffle_unshuffle]
    rw [crypt_data_involutive b pid ck hsz1 hpar hbytes]

/-- A concrete 236-byte buffer used to witness claim C2. -/
def c2Buf : Buffer := ⟨GEN4_PKM_LEN, fun i => i % 2 ^ 8⟩

/-- Claim C2, witness: the involution at a concrete 236-byte buffer. -/
theorem c2_cipher_involution_witness :
    (c2Buf.size = GEN4_PKM_LEN ∨ c2Buf.size = GEN5_PKM_LEN) ∧
    ((to_encrypted_data c2Buf).bind to_decrypted_data = some c2Buf ∧
      (to_decrypted_data c2Buf).bind to_encrypted_data = some c2Buf) :=
  ⟨Or.inl rfl,
    c2_cipher_involution c2Buf (Or.inl rfl) (fun i _ => Nat.mod_lt i (by norm_num))⟩

/-! ## The domain value types (`internal_types.rs`)

The deep enumerations are embedded as their on-disk `u16`/`u8`
discriminants (a `Nat`), together with a validity predicate that holds
exactly on the ids carried by the Rust enum (`TryFromPrimitive` accepts
exactly those). -/

/-- `Stat` (the six Pokémon stats). -/
inductive Stat where
  | Hp
  | Atk
  | Def
  | SpA
  | SpD
  | Spe
deriving DecidableEq

/-- `StatsFeature` (EVs, IVs, base stats, current stats).  The Rust field
`def` is spelled `def_` here because `def` is a Lean keyword. -/
structure StatsFeature where
  hp : Nat
  atk : Nat
  def_ : Nat
  spa : Nat
  spd : Nat
  spe : Nat
deriving DecidableEq

/-- `StatsFeature::get`. -/
def StatsFeature.get (s : StatsFeature) (stat : Stat) : Nat :=
  match stat with
  | Stat.Hp => s.hp
  | Stat.Atk => s.atk
  | Stat.Def => s.def_
  | Stat.SpA => s.spa
  | Stat.SpD => s.spd
  | Stat.Spe => s.spe

/-- `ContestStatsFeature`. -/
structure ContestStatsFeature where
  cool : Nat
  beauty : Nat
  cute : Nat
  smart : Nat
  tough : Nat
  sheen : Nat
deriving DecidableEq

/-- `Nature`: id (the `id_and_name : IdFeature` of the source carries an
id and a display name; only the id reaches the codec, so the name is
dropped here), plus the increased and the decreased stat. -/
structure Nature where
  id : Nat
  increased_stat : Stat
  decreased_stat : Stat
deriving DecidableEq

/-- `HashSet<ShinyLeaf>`, embedded extensionally as one membership flag
per leaf. -/
structure ShinyLeaves where
  a : Bool
  b : Bool
  c : Bool
  d : Bool
  e : Bool
  crown : Bool
deriving DecidableEq

/-- `Location`: a Gen-4 or a Gen-5 location id. -/
inductive Location where
  | gen4 (loc : Nat)
  | gen5 (loc : Nat)
deriving DecidableEq

/-- `impl Into<u16> for Location`: the discriminant. -/
def Location.toU16 : Location → Nat
  | .gen4 l => l
  | .gen5 l => l

/-- `Location::default()` is `Gen4(MysteryZone)`. -/
def Location.default : Location := .gen4 0

/-- `Gen4Location` ids accepted by `TryFromPrimitive`: the contiguous
runs `MysteryZone..CliffEdgeGate`, `DayCareCouple..Primo` and
`LovelyPlace..ConcertEvent`. -/
def Gen4Location.isValid (id : Nat) : Bool :=
  decide (id ≤ 0xEA ∨ (0x7D0 ≤ id ∧ id ≤ 0x7DE) ∨ (0xBB8 ≤ id ∧ id ≤ 0xBF9))

/-- `Gen4Location::DP_LAST_LOCATION = BattlePark`. -/
def Gen4Location.DP_LAST_LOCATION : Nat := 0x6F

/-- `Gen4Location::FarawayPlace`. -/
def Gen4Location.FarawayPlace : Nat := 0xBBA

/-- `Gen4Location::PokeathlonDome`. -/
def Gen4Location.PokeathlonDome : Nat := 0xE1

/-- `Gen5Location` ids accepted by `TryFromPrimitive`: the contiguous
runs `Dashes..PledgeGrove`, `OtherRegionDistantLand..EventSite` and
`Stranger..TreasureHunterOrPKMNBreeder`. -/
def Gen5Location.isValid (id : Nat) : Bool :=
  decide (id ≤ 0x9A ∨ (0x7531 ≤ id ∧ id ≤ 0x75AB) ∨ (0xEA61 ≤ id ∧ id ≤ 0xEA63))

/-- `Game` ids accepted by `TryFromPrimitive`. -/
def Game.isValid (id : Nat) : Bool :=
  decide ((1 ≤ id ∧ id ≤ 5) ∨ id = 7 ∨ id = 8 ∨ (10 ≤ id ∧ id ≤ 12) ∨ id = 15 ∨
    (20 ≤ id ∧ id ≤ 23))

/-- `Pokeball` ids accepted by `TryFromPrimitive` (`MasterBall = 1` up to
`DreamBall = 25`). -/
def Pokeball.isValid (id : Nat) : Bool := decide (1 ≤ id ∧ id ≤ 25)

/-- `Pokeball::FIRST_HGSS_BALL = FastBall`. -/
def Pokeball.FIRST_HGSS_BALL : Nat := 0x11

/-- `Pokeball::PokeBall`. -/
def Pokeball.PokeBall : Nat := 0x04

/-- `Language` ids accepted by `TryFromPrimitive`
(`Japanese = 1 .. German = 5`, `Spanish = 7`, `Korean = 8`). -/
def Language.isValid (id : Nat) : Bool :=
  decide ((1 ≤ id ∧ id ≤ 5) ∨ id = 7 ∨ id = 8)

/-- `Gender` ids accepted by `TryFromPrimitive`
(`Male = 0`, `Female = 1`, `Genderless = 2`). -/
def Gender.isValid (id : Nat) : Bool := decide (id ≤ 2)

/-- Modelled from the spec: the runtime data tables of `data_maps.rs` are
loaded from JSON files (`data/char_map.json`, `species.json`,
`items.json`, `itemsg5.json`, `abilities.json`, `moves.json`,
`natures.json`, `nature_modifiers.json`, `base_stats.json`,
`level_curves.json`) that are not part of `src/`.  The codec consults
them only through the lookups below (§4.1 of the spec), so they are
abstracted into this record:
* `charmap` / `charmapRev` are `CHARMAP.get_by_left` (code → character
  scalar) and `CHARMAP.get_by_right` (character scalar → code);
* the `..Valid` functions tell whether an id is present in the
  corresponding name table (`.get_by_left(id).is_some()` resp.
  `MOVES.get(id).is_some()`);
* `baseStats` is `BASE_STATS.get(id)`, one row of 7 bytes per species
  (spec: `[growth-class, HP, Atk, Def, SpA, SpD, Spe]`);
* `levelCurves level class` is `LEVEL_CURVES[level][class]`;
* `natureIncreased` / `natureDecreased` are the increased/decreased stat
  that `Nature::new` derives from the `NATURE_MODIFIERS` row of a nature
  id. -/
structure Tables where
  charmap : Nat → Option Nat
  charmapRev : Nat → Option Nat
  speciesValid : Nat → Bool
  itemsGen4Valid : Nat → Bool
  itemsGen5Valid : Nat → Bool
  abilitiesValid : Nat → Bool
  movesValid : Nat → Bool
  baseStats : Nat → Option (List Nat)
  levelCurves : Nat → Nat → Nat
  natureIncreased : Nat → Stat
  natureDecreased : Nat → Stat

/-- `Nature::from_id`.  Modelled from the spec: `NATURES` holds the 25
nature names indexed `0..24` (§4.1), so the lookup succeeds exactly for
`id < 25`; the stat changes come from the `NATURE_MODIFIERS` row via
`Nature::new`. -/
def natureFromId (t : Tables) (id : Nat) : Option Nature :=
  if id < 25 then some ⟨id, t.natureIncreased id, t.natureDecreased id⟩ else none

/-! ## The Pokémon record (`pokemon.rs`) -/

/-- The `Pokemon` structure.  `IdFeature` fields (species, held item,
ability, moves) are embedded as their ids — the display name half of an
`IdFeature` is always derived from the id via the name tables and never
reaches the byte codec.  Names are lists of Unicode scalar values
(`String` as a sequence of `char`s); dates are `(year, month, day)`
triples. -/
structure Pokemon where
  species : Nat
  name : List Nat
  pid : Nat
  nature : Nature
  encryption_bypass : Bool
  bad_egg_flag : Bool
  original_checksum : Nat
  held_item : Nat
  trainer_id : Nat
  trainer_secret_id : Nat
  experience : Nat
  level : Nat
  friendship : Nat
  ability : Nat
  markings : Nat
  language : Nat
  evs : StatsFeature
  contest_stats : ContestStatsFeature
  sinnoh_ribbons : List Nat
  moves : List Nat
  move_pps : List Nat
  move_pp_ups : List Nat
  ivs : StatsFeature
  is_egg : Bool
  is_nicknamed : Bool
  hoenn_ribbons : List Nat
  fateful : Bool
  gender : Nat
  form_id : Nat
  shiny_leaves : ShinyLeaves
  egg_location : Location
  met_location : Location
  origin_game : Nat
  trainer_name : List Nat
  egg_date : Option (Nat × Nat × Nat)
  met_date : Nat × Nat × Nat
  pokerus : Nat
  ball : Nat
  met_level : Nat
  trainer_gender : Nat
  encounter_type : Nat
  performance : Nat
  stats : Option StatsFeature
  is_shiny : Bool
  is_gen5 : Bool
deriving DecidableEq

/-- `Pokemon::default()`: every field takes its `Default` value
(`0`, `false`, empty, `None`; `Stat::default() = Atk`;
`Language::default() = English = 2`; `Game::default() = Diamond = 10`;
`Pokeball::default() = PokeBall = 4`;
`Location::default() = Gen4(MysteryZone)`;
`NaiveDate::default() = 1970-01-01`). -/
def Pokemon.default : Pokemon where
  species := 0
  name := []
  pid := 0
  nature := ⟨0, Stat.Atk, Stat.Atk⟩
  encryption_bypass := false
  bad_egg_flag := false
  original_checksum := 0
  held_item := 0
  trainer_id := 0
  trainer_secret_id := 0
  experience := 0
  level := 0
  friendship := 0
  ability := 0
  markings := 0
  language := 2
  evs := ⟨0, 0, 0, 0, 0, 0⟩
  contest_stats := ⟨0, 0, 0, 0, 0, 0⟩
  sinnoh_ribbons := [0, 0, 0, 0, 0, 0, 0, 0]
  moves := [0, 0, 0, 0]
  move_pps := [0, 0, 0, 0]
  move_pp_ups := [0, 0, 0, 0]
  ivs := ⟨0, 0, 0, 0, 0, 0⟩
  is_egg := false
  is_nicknamed := false
  hoenn_ribbons := [0, 0, 0, 0]
  fateful := false
  gender := 0
  form_id := 0
  shiny_leaves := ⟨false, false, false, false, false, false⟩
  egg_location := Location.default
  met_location := Location.default
  origin_game := 10
  trainer_name := []
  egg_date := none
  met_date := (1970, 1, 1)
  pokerus := 0
  ball := 4
  met_level := 0
  trainer_gender := 0
  encounter_type := 0
  performance := 0
  stats := none
  is_shiny := false
  is_gen5 := false

/-- `Pokemon::is_shiny` (the method): shininess from PID, trainer id and
trainer secret id.  The `as u16` casts are the explicit `% 2 ^ 16`. -/
def Pokemon.isShiny (p : Pokemon) : Bool :=
  let pid_high := (p.pid >>> 16) % 2 ^ 16
  let pid_low := (p.pid &&& 0xFFFF) % 2 ^ 16
  let tid_xor := p.trainer_id ^^^ p.trainer_secret_id
  let pid_xor := pid_high ^^^ pid_low
  decide (tid_xor ^^^ pid_xor < 8)

/-- `Pokemon::set_pid`: store the PID, re-derive the nature from
`pid % 25` (the `should_be_some!` panic is the `none` case), and refresh
the shininess flag. -/
def Pokemon.set_pid (t : Tables) (p : Pokemon) (pid : Nat) : Option Pokemon :=
  (natureFromId t (pid % 25)).map fun n =>
    let p' := { p with pid := pid, nature := n }
    { p' with is_shiny := p'.isShiny }

/-- `Pokemon::set_nature`: store the nature, then
`pid = pid.wrapping_sub(nature.id_and_name.id() as u32)`, and refresh the
shininess flag.  The wrapping subtraction on `u32` is
`(pid + 2 ^ 32 - id % 2 ^ 32) % 2 ^ 32`. -/
def Pokemon.set_nature (p : Pokemon) (nature : Nature) : Pokemon :=
  let p' := { p with nature := nature }
  let p'' := { p' with pid := (p'.pid + (2 ^ 32 - nature.id % 2 ^ 32)) % 2 ^ 32 }
  { p'' with is_shiny := p''.isShiny }

/-- The scanning loop of `Pokemon::level_from_xp`:
`for i in 1..100 { if LEVEL_CURVES[i][exp_type] > exp { return i } }` and
`100` when the loop falls through.  `fuel` counts the remaining
iterations (99 at the top). -/
def level_scan (curve : Nat → Nat) (exp : Nat) : Nat → Nat → Nat
  | _, 0 => 100
  | i, fuel + 1 => if exp < curve i then i else level_scan curve exp (i + 1) fuel

/-- `Pokemon::level_from_xp`, parameterised by the experience-curve
column of the Pokémon's growth class:
`curve = fun lvl => LEVEL_CURVES[lvl][BASE_STATS[species][0]]`
(the table itself is runtime data, see `Tables`). -/
def level_from_xp (curve : Nat → Nat) (exp : Nat) : Nat :=
  level_scan curve exp 1 99

/-- `Pokemon::set_experience`: store the experience, then re-derive the
level from it. -/
def Pokemon.set_experience (curve : Nat → Nat) (p : Pokemon) (experience : Nat) : Pokemon :=
  let p' := { p with experience := experience }
  { p' with level := level_from_xp curve p'.experience }

/-- A nature with id 1 (in the games, Lonely: +Atk, −Def), used to
exhibit the `set_nature` slip of claim C4. -/
def c4Nature : Nature := ⟨1, Stat.Atk, Stat.Def⟩

/-- Claim C4 (code_bug): the first half holds — after `set_pid(p)` the
nature id is `p mod 25` for every Pokémon and every `p`.  The second half
is false in the code: `set_nature` updates the PID by
`pid.wrapping_sub(nature.id)`, which does not re-establish
`pid mod 25 == nature.id`.  At the failing input (a Pokémon with
`pid = 0`, nature id 1) the updated PID is `0xFFFFFFFF` and
`0xFFFFFFFF mod 25 = 20 ≠ 1`, contradicting the claim (and the code's own
documentation that the nature is derived from the PID). -/
theorem c4_nature_pid_coupling :
    (∀ (t : Tables) (p : Pokemon) (v : Nat),
      (p.set_pid t v).map (fun q => q.nature.id) = some (v % 25)) ∧
    (Pokemon.default.set_nature c4Nature).pid = 0xFFFFFFFF ∧
    (Pokemon.default.set_nature c4Nature).pid % 25 = 20 ∧
    c4Nature.id = 1 := by
  refine ⟨?_, by decide, by decide, rfl⟩
  intro t p v
  unfold Pokemon.set_pid natureFromId
  rw [if_pos (Nat.mod_lt _ (by norm_num))]
  rfl

/-! ## Claim C6: level from experience -/

/-- If no level in the scanned window needs more experience than `exp`,
the scan falls through to 100. -/
theorem level_scan_all_le (curve : Nat → Nat) (exp : Nat) :
    ∀ fuel i, (∀ k, i ≤ k → k < i + fuel → curve k ≤ exp) →
      level_scan curve exp i fuel = 100 := by
  intro fuel
  induction fuel with
  | zero => intro i _; rfl
  | succ n ih =>
    intro i h
    unfold level_scan
    rw [if_neg (by
      have := h i (le_refl i) (by omega)
      omega)]
    exact ih (i + 1) (fun k h1 h2 => h k (by omega) (by omega))

/-- The scan returns the first level in its window whose threshold
exceeds `exp`. -/
theorem level_scan_first (curve : Nat → Nat) (exp : Nat) :
    ∀ fuel i k, i ≤ k → k < i + fuel → exp < curve k →
      (∀ m, i ≤ m → m < k → curve m ≤ exp) →
      level_scan curve exp i fuel = k := by
  intro fuel
  induction fuel with
  | zero => intro i k h1 h2 _ _; omega
  | succ n ih =>
    intro i k h1 h2 h3 h4
    unfold level_scan
    by_cases hc : exp < curve i
    · rw [if_pos hc]
      by_contra hne
      have hik : i < k := by omega
      have := h4 i (le_refl i) hik
      omega
    · rw [if_neg hc]
      have hik : i < k := by
        rcases Nat.eq_or_lt_of_le h1 with h | h
        · subst h; omega
        · exact h
      exact ih (i + 1) k hik (by omega) h3 (fun m hm1 hm2 => h4 m (by omega) hm2)

/-- Claim C6 (confirmed): for a monotone experience-curve column and
in-range experience (`exp ≥ curve 0`), the level computed from experience
— `level_from_xp`, as stored by `set_experience` — is the unique
`L ∈ [1, 100]` with `curve L > exp ≥ curve (L-1)`, and is `100` whenever
`exp ≥ curve 100`. -/
theorem c6_level_from_experience (curve : Nat → Nat) (exp : Nat) (p : Pokemon)
    (hmono : ∀ i j, i ≤ j → j ≤ 100 → curve i ≤ curve j)
    (h0 : curve 0 ≤ exp) :
    (p.set_experience curve exp).level = level_from_xp curve exp ∧
    (exp < curve 100 →
      (1 ≤ level_from_xp curve exp ∧ level_from_xp curve exp ≤ 100 ∧
        exp < curve (level_from_xp curve exp) ∧
        curve (level_from_xp curve exp - 1) ≤ exp) ∧
      (∀ L, 1 ≤ L → L ≤ 100 → exp < curve L → curve (L - 1) ≤ exp →
        L = level_from_xp curve exp)) ∧
    (curve 100 ≤ exp → level_from_xp curve exp = 100) := by
  refine ⟨rfl, ?_, ?_⟩
  · intro hc
    by_cases hall : ∀ k, 1 ≤ k → k < 100 → curve k ≤ exp
    · have h100 : level_from_xp curve exp = 100 :=
        level_scan_all_le curve exp 99 1 (fun k h1 h2 => hall k h1 (by omega))
      rw [h100]
      refine ⟨⟨by omega, le_refl _, hc, hall 99 (by omega) (by omega)⟩, ?_⟩
      intro L hL1 hL2 hL3 hL4
      by_contra hne
      have hlt : L < 100 := by omega
      have := hall L hL1 hlt
      omega
    · push_neg at hall
      obtain ⟨k, hk1, hk2, hk3⟩ := hall
      -- the least level whose threshold exceeds `exp`
      have hex : ∃ m, 1 ≤ m ∧ m < 100 ∧ exp < curve m := ⟨k, hk1, hk2, hk3⟩
      obtain ⟨hm1, hm2, hm3⟩ := Nat.find_spec hex
      have hmin : ∀ j, j < Nat.find hex → ¬(1 ≤ j ∧ j < 100 ∧ exp < curve j) :=
        fun j hj => Nat.find_min hex hj
      have hscan : level_from_xp curve exp = Nat.find hex :=
        level_scan_first curve exp 99 1 (Nat.find hex) hm1 (by omega) hm3
          (fun j hj1 hj2 => by
            by_contra hlt
            exact hmin j hj2 ⟨hj1, by omega, by omega⟩)
      rw [hscan]
      constructor
      · refine ⟨hm1, by omega, hm3, ?_⟩
        rcases Nat.eq_or_lt_of_le hm1 with h | h
        · rw [← h]
          simpa using h0
        · by_contra hlt
          exact hmin (Nat.find hex - 1) (by omega) ⟨by omega, by omega, by omega⟩
      · intro L hL1 hL2 hL3 hL4
        by_contra hne
        rcases Nat.lt_or_ge L (Nat.find hex) with h | h
        · exact hmin L h ⟨hL1, by omega, hL3⟩
        · have hle : Nat.find hex ≤ L - 1 := by omega
          have := hmono (Nat.find hex) (L - 1) hle (by omega)
          omega
  · intro hc
    apply level_scan_all_le
    intro k h1 h2
    calc curve k ≤ curve 100 := hmono k 100 (by omega) (le_refl _)
      _ ≤ exp := hc

/-- A concrete monotone experience curve used to witness claim C6. -/
def c6Curve : Nat → Nat := fun lvl => lvl * lvl

/-- Claim C6, witness: the theorem at the concrete curve `lvl ↦ lvl²`
and experience 55 (where the level is 8: `64 > 55 ≥ 49`). -/
theorem c6_level_from_experience_witness :
    c6Curve 0 ≤ 55 ∧
    ((Pokemon.default.set_experience c6Curve 55).level = level_from_xp c6Curve 55 ∧
      (55 < c6Curve 100 →
        (1 ≤ level_from_xp c6Curve 55 ∧ level_from_xp c6Curve 55 ≤ 100 ∧
          55 < c6Curve (level_from_xp c6Curve 55) ∧
          c6Curve (level_from_xp c6Curve 55 - 1) ≤ 55) ∧
        (∀ L, 1 ≤ L → L ≤ 100 → 55 < c6Curve L → c6Curve (L - 1) ≤ 55 →
          L = level_from_xp c6Curve 55)) ∧
      (c6Curve 100 ≤ 55 → level_from_xp c6Curve 55 = 100)) :=
  ⟨by decide, c6_level_from_experience c6Curve 55 Pokemon.default
    (fun i j h _ => Nat.mul_le_mul h h) (by decide)⟩

/-! ## Name codecs (`encode_name_gen4`, `decode_name_gen4`,
`encode_name_gen5`, `decode_name_gen5`) -/

/-- `Pokemon::encode_name_gen4`: look every character up in the
charmap (errror when absent), emit its code as two little-endian bytes,
then append the `0xFF 0xFF` terminator. -/
def encode_name_gen4 (t : Tables) (name : List Nat) : Option (List Nat) :=
  (name.mapM t.charmapRev).map fun codes => codes.flatMap u16ToLe ++ [0xFF, 0xFF]

/-- `Pokemon::decode_name_gen4`: walk the bytes two at a time; stop with
the accumulated name at the `0xFFFF` terminator; fail on a code outside
the charmap.  A trailing odd byte indexes `chunk[1]` out of bounds in the
Rust code (a panic), embedded as `none`; all callers pass even-length
slices. -/
def decode_name_gen4 (t : Tables) : List Nat → Option (List Nat)
  | [] => some []
  | [_] => none
  | b0 :: b1 :: rest =>
    let char_code := b0 + 2 ^ 8 * b1
    if char_code = 0xFFFF then some []
    else
      match t.charmap char_code with
      | some chr => (decode_name_gen4 t rest).map (chr :: ·)
      | none => none

/-- The UTF-16 code units of one Unicode scalar value
(`str::encode_utf16`). -/
def utf16Units (c : Nat) : List Nat :=
  if c < 0x10000 then [c]
  else [0xD800 + (c - 0x10000) / 0x400, 0xDC00 + (c - 0x10000) % 0x400]

/-- `Pokemon::encode_name_gen5`: UTF-16LE code units followed by the
`0xFF 0xFF` terminator. -/
def encode_name_gen5 (name : List Nat) : List Nat :=
  (name.flatMap fun c => (utf16Units c).flatMap u16ToLe) ++ [0xFF, 0xFF]

/-- `chunks(2)` + `u16::from_le_bytes`, shared by the Gen-5 decoders; a
trailing odd byte is the `chunk[1]` out-of-bounds panic. -/
def toU16List : List Nat → Option (List Nat)
  | [] => some []
  | [_] => none
  | b0 :: b1 :: rest => (toU16List rest).map ((b0 + 2 ^ 8 * b1) :: ·)

/-- `String::from_utf16`: pair the surrogates, fail on an unpaired
surrogate. -/
def utf16Decode : List Nat → Option (List Nat)
  | [] => some []
  | [u] => if u < 0xD800 ∨ 0xE000 ≤ u then some [u] else none
  | u :: u2 :: rest =>
    if u < 0xD800 ∨ 0xE000 ≤ u then (utf16Decode (u2 :: rest)).map (u :: ·)
    else if u < 0xDC00 then
      if 0xDC00 ≤ u2 ∧ u2 < 0xE000 then
        (utf16Decode rest).map ((0x10000 + (u - 0xD800) * 0x400 + (u2 - 0xDC00)) :: ·)
      else none
    else none

/-- `Pokemon::decode_name_gen5`: decode UTF-16, then
`split("\u{ffff}")`; error when there is no terminator
(`split.len() < 2`, i.e. no `0xFFFF` among the scalars) or when the part
before the terminator is empty. -/
def decode_name_gen5 (bytes : List Nat) : Option (List Nat) :=
  Option.bind (toU16List bytes) fun byte_chars =>
  Option.bind (utf16Decode byte_chars) fun decoded =>
  let first := decoded.takeWhile (· ≠ 0xFFFF)
  if decoded.length = first.length ∨ first.isEmpty then none
  else some first

/-! ## Dates -/

/-- The length of a month, as `chrono` reckons it (proleptic Gregorian
calendar). -/
def daysInMonth (y m : Nat) : Nat :=
  if m = 2 then (if y % 4 = 0 ∧ (y % 100 ≠ 0 ∨ y % 400 = 0) then 29 else 28)
  else if m = 4 ∨ m = 6 ∨ m = 9 ∨ m = 11 then 30 else 31

/-- `NaiveDate::from_ymd_opt`, restricted to the codec's year range
(`2000..2255`, well inside chrono's bounds): `Some` exactly on calendar
dates. -/
def fromYmdOpt (y m d : Nat) : Option (Nat × Nat × Nat) :=
  if 1 ≤ m ∧ m ≤ 12 ∧ 1 ≤ d ∧ d ≤ daysInMonth y m then some (y, m, d) else none

/-! ## The nature-modified stat generation (`Pokemon::generate_stats`)

The nature modifier multiplies a `u16` stat by the `f32` constants `1.1`
or `0.9` and truncates back to `u16`.  That is modelled bit-exactly:
`1.1f32 = 9227469 · 2⁻²³` and `0.9f32 = 15099494 · 2⁻²⁴` (their binary32
values), the product is rounded to a 24-bit significand with
round-to-nearest, ties-to-even, and the `as u16` cast truncates toward
zero, saturating at `0xFFFF`. -/

/-- Round a natural number to 24 significant bits (binary32 significand),
round-to-nearest, ties-to-even. -/
def f32round (r : Nat) : Nat :=
  if r < 2 ^ 24 then r
  else
    let e := r.log2 - 23
    let q := r / 2 ^ e
    let rem := r % 2 ^ e
    let half := 2 ^ (e - 1)
    let q' :=
      if half < rem then q + 1
      else if rem < half then q
      else if q % 2 = 0 then q else q + 1
    q' * 2 ^ e

/-- `(x as f32 * 1.1) as u16`, bit-exactly. -/
def mul_1_1_f32 (x : Nat) : Nat := min (f32round (x * 9227469) / 2 ^ 23) (2 ^ 16 - 1)

/-- `(x as f32 * 0.9) as u16`, bit-exactly. -/
def mul_0_9_f32 (x : Nat) : Nat := min (f32round (x * 15099494) / 2 ^ 24) (2 ^ 16 - 1)

/-- `Pokemon::generate_stats`: stats from base stats, level, IVs, EVs and
nature.  The `should_be_some!` on the `BASE_STATS` row and the
`should_not_happen!` on an HP-modifying nature are the `none` cases.
(The source indexes the 7-entry row at `0..5` for HP..Speed.)  The
arithmetic is `u16` arithmetic: every add and multiply of the source
carries its wrap as an explicit `% 2 ^ 16`, in the source's evaluation
order (the `as u16` casts of a `u8` base stat and of the `u8` level are
exact). -/
def Pokemon.generate_stats (t : Tables) (p : Pokemon) : Option StatsFeature :=
  Option.bind (t.baseStats p.species) fun base_stats =>
  let lv := p.level
  let ivs := p.ivs
  let evs := p.evs
  let hp :=
    ((ivs.hp + 2 * base_stats.getD 0 0 % 2 ^ 16) % 2 ^ 16 + evs.hp / 4) % 2 ^ 16 * lv
      % 2 ^ 16 / 100 + 10
  let hp := hp % 2 ^ 16
  let atk :=
    ((ivs.atk + 2 * base_stats.getD 1 0 % 2 ^ 16) % 2 ^ 16 + evs.atk) % 2 ^ 16 / 4 * lv
      % 2 ^ 16 / 100 + 5
  let atk := atk % 2 ^ 16
  let def_ :=
    ((ivs.def_ + 2 * base_stats.getD 2 0 % 2 ^ 16) % 2 ^ 16 + evs.def_) % 2 ^ 16 / 4 * lv
      % 2 ^ 16 / 100 + 5
  let def_ := def_ % 2 ^ 16
  let spa :=
    ((ivs.spa + 2 * base_stats.getD 3 0 % 2 ^ 16) % 2 ^ 16 + evs.spa) % 2 ^ 16 / 4 * lv
      % 2 ^ 16 / 100 + 5
  let spa := spa % 2 ^ 16
  let spd :=
    ((ivs.spd + 2 * base_stats.getD 4 0 % 2 ^ 16) % 2 ^ 16 + evs.spd) % 2 ^ 16 / 4 * lv
      % 2 ^ 16 / 100 + 5
  let spd := spd % 2 ^ 16
  let spe :=
    ((ivs.spe + 2 * base_stats.getD 5 0 % 2 ^ 16) % 2 ^ 16 + evs.spe) % 2 ^ 16 / 4 * lv
      % 2 ^ 16 / 100 + 5
  let spe := spe % 2 ^ 16
  let stats : StatsFeature := ⟨hp, atk, def_, spa, spd, spe⟩
  Option.bind (match p.nature.increased_stat with
    | Stat.Atk => some { stats with atk := mul_1_1_f32 stats.atk }
    | Stat.Def => some { stats with def_ := mul_1_1_f32 stats.def_ }
    | Stat.SpA => some { stats with spa := mul_1_1_f32 stats.spa }
    | Stat.SpD => some { stats with spd := mul_1_1_f32 stats.spd }
    | Stat.Spe => some { stats with spe := mul_1_1_f32 stats.spe }
    | Stat.Hp => none) fun stats =>
  Option.bind (match p.nature.decreased_stat with
    | Stat.Atk => some { stats with atk := mul_0_9_f32 stats.atk }
    | Stat.Def => some { stats with def_ := mul_0_9_f32 stats.def_ }
    | Stat.SpA => some { stats with spa := mul_0_9_f32 stats.spa }
    | Stat.SpD => some { stats with spd := mul_0_9_f32 stats.spd }
    | Stat.Spe => some { stats with spe := mul_0_9_f32 stats.spe }
    | Stat.Hp => none) fun stats =>
  some stats

/-! ## Serialization (`Pokemon::serialize`) -/

/-- The checksum fold at the end of `Pokemon::serialize`: the wrapping
`u16` sum of the 64 little-endian words at `0x08..0x88`. -/
def checksumOf (b : Buffer) : Nat :=
  (List.range 64).foldl (fun acc i => (acc + readU16 b (0x08 + 2 * i)) % 2 ^ 16) 0

/-- All of `Pokemon::serialize` except its final step (the checksum):
fill a zeroed `0xEC`- (Gen 4) or `0xDC`-byte (Gen 5) buffer field by
field.  Fixed-size array fields (`[u8; N]`, `[IdFeature; 4]`) are copied
entry by entry (`getD k 0` is element `k`); the `should_be_ok!` on name
encoding and the panics inside `generate_stats` and the location matches
are the `none` cases. -/
def Pokemon.serializeBody (t : Tables) (p : Pokemon) : Option Buffer :=
  let bytes := if p.is_gen5 = false then Buffer.zeros GEN4_PKM_LEN else Buffer.zeros GEN5_PKM_LEN
  -- Block A: 0x00 - 0x28
  let bytes := writeBytes bytes 0x00 (u32ToLe p.pid)
  let bytes := writeByte bytes 0x04 (p.encryption_bypass.toNat ||| (p.bad_egg_flag.toNat <<< 1))
  -- Checksum is computed at the end.
  let bytes := writeBytes bytes 0x08 (u16ToLe p.species)
  let bytes := writeBytes bytes 0x0A (u16ToLe p.held_item)
  let bytes := writeBytes bytes 0x0C (u16ToLe p.trainer_id)
  let bytes := writeBytes bytes 0x0E (u16ToLe p.trainer_secret_id)
  let bytes := writeBytes bytes 0x10 (u32ToLe p.experience)
  let bytes := writeByte bytes 0x14 p.friendship
  let bytes := writeByte bytes 0x15 (p.ability % 2 ^ 8)
  let bytes := writeByte bytes 0x16 p.markings
  let bytes := writeByte bytes 0x17 p.language
  let bytes := writeBytes bytes 0x18 [p.evs.hp % 2 ^ 8, p.evs.atk % 2 ^ 8, p.evs.def_ % 2 ^ 8,
    p.evs.spa % 2 ^ 8, p.evs.spd % 2 ^ 8, p.evs.spe % 2 ^ 8]
  let bytes := writeBytes bytes 0x1E [p.contest_stats.cool, p.contest_stats.beauty,
    p.contest_stats.cute, p.contest_stats.smart, p.contest_stats.tough, p.contest_stats.sheen]
  let bytes := writeBytes bytes 0x24 [p.sinnoh_ribbons.getD 0 0, p.sinnoh_ribbons.getD 1 0,
    p.sinnoh_ribbons.getD 2 0, p.sinnoh_ribbons.getD 3 0]
  -- Block B: 0x28 - 0x48
  let bytes := writeBytes bytes 0x28 (u16ToLe (p.moves.getD 0 0) ++ u16ToLe (p.moves.getD 1 0) ++
    u16ToLe (p.moves.getD 2 0) ++ u16ToLe (p.moves.getD 3 0))
  let bytes := writeBytes bytes 0x30 [p.move_pps.getD 0 0, p.move_pps.getD 1 0,
    p.move_pps.getD 2 0, p.move_pps.getD 3 0]
  let bytes := writeBytes bytes 0x34 [p.move_pp_ups.getD 0 0, p.move_pp_ups.getD 1 0,
    p.move_pp_ups.getD 2 0, p.move_pp_ups.getD 3 0]
  -- (ivs.get(iv) as u32) << (5 * i), OR-ed over (Hp, Atk, Def, Spe, SpA, SpD)
  let iv_bytes := (p.ivs.hp <<< 0) % 2 ^ 32 ||| (p.ivs.atk <<< 5) % 2 ^ 32 |||
    (p.ivs.def_ <<< 10) % 2 ^ 32 ||| (p.ivs.spe <<< 15) % 2 ^ 32 |||
    (p.ivs.spa <<< 20) % 2 ^ 32 ||| (p.ivs.spd <<< 25) % 2 ^ 32
  let bytes := writeBytes bytes 0x38 (u32ToLe iv_bytes)
  let bytes := writeByte bytes 0x3B
    (bytes.data 0x3B ||| (p.is_egg.toNat <<< 6 ||| p.is_nicknamed.toNat <<< 7))
  let bytes := writeBytes bytes 0x3C [p.hoenn_ribbons.getD 0 0, p.hoenn_ribbons.getD 1 0,
    p.hoenn_ribbons.getD 2 0, p.hoenn_ribbons.getD 3 0]
  let bytes := writeByte bytes 0x40
    (p.fateful.toNat ||| (p.gender <<< 1) ||| (p.form_id <<< 3) % 2 ^ 8)
  let bytes := if p.is_gen5 = false then
      -- Gen 4 stores in 0x41 the shiny leaves:
      let leaf_bytes := (if p.shiny_leaves.a then 1 <<< 0x00 else 0) |||
        (if p.shiny_leaves.b then 1 <<< 0x01 else 0) |||
        (if p.shiny_leaves.c then 1 <<< 0x02 else 0) |||
        (if p.shiny_leaves.d then 1 <<< 0x03 else 0) |||
        (if p.shiny_leaves.e then 1 <<< 0x04 else 0) |||
        (if p.shiny_leaves.crown then 1 <<< 0x05 else 0)
      writeByte bytes 0x41 leaf_bytes
    else
      -- Gen 5 stores in 0x41 the nature ID:
      writeByte bytes 0x41 (p.nature.id % 2 ^ 8)
  let bytes := if p.is_gen5 = false then
      let bytes := writeBytes bytes 0x44 (u16ToLe p.egg_location.toU16)
      writeBytes bytes 0x46 (u16ToLe p.met_location.toU16)
    else bytes
  -- Block C: 0x48 - 0x68
  Option.bind
    (if p.is_gen5 = false then encode_name_gen4 t p.name else some (encode_name_gen5 p.name))
    fun encoded_name =>
  let bytes := writeBytes bytes 0x48 (listResize encoded_name (0x5E - 0x48))
  let bytes := writeByte bytes 0x5F p.origin_game
  let bytes := writeBytes bytes 0x60 [p.sinnoh_ribbons.getD 4 0, p.sinnoh_ribbons.getD 5 0,
    p.sinnoh_ribbons.getD 6 0, p.sinnoh_ribbons.getD 7 0]
  -- Block D: 0x68 - 0x82
  Option.bind
    (if p.is_gen5 = false then encode_name_gen4 t p.trainer_name
      else some (encode_name_gen5 p.trainer_name))
    fun encoded_tname =>
  let bytes := writeBytes bytes 0x68 (listResize encoded_tname (0x78 - 0x68))
  let bytes := match p.egg_date with
    | some (y, m, d) => writeBytes bytes 0x78 [(y - 2000) % 2 ^ 8, m % 2 ^ 8, d % 2 ^ 8]
    | none => bytes
  let bytes := writeBytes bytes 0x7B [(p.met_date.1 - 2000) % 2 ^ 8, p.met_date.2.1 % 2 ^ 8,
    p.met_date.2.2 % 2 ^ 8]
  Option.bind
    (if p.is_gen5 = false then
      -- Handle location particularities of Diamond and Pearl:
      Option.bind (match p.egg_location with
        | Location.gen4 l => some l
        | Location.gen5 _ => none) fun egg_location =>
      Option.bind (match p.met_location with
        | Location.gen4 l => some l
        | Location.gen5 _ => none) fun met_location =>
      let dp_egg_location :=
        if egg_location ≤ Gen4Location.DP_LAST_LOCATION then egg_location
        else Gen4Location.FarawayPlace
      let dp_met_location :=
        if met_location ≤ Gen4Location.DP_LAST_LOCATION then met_location
        else Gen4Location.FarawayPlace
      let bytes := writeBytes bytes 0x7E (u16ToLe dp_egg_location)
      some (writeBytes bytes 0x80 (u16ToLe dp_met_location))
    else
      let bytes := writeBytes bytes 0x7E (u16ToLe p.egg_location.toU16)
      some (writeBytes bytes 0x80 (u16ToLe p.met_location.toU16)))
    fun bytes =>
  let bytes := writeByte bytes 0x82 p.pokerus
  -- Handle HGSS ball particularities:
  let bytes := writeByte bytes 0x83
    (if p.is_gen5 = false ∧ Pokeball.FIRST_HGSS_BALL ≤ p.ball then Pokeball.PokeBall else p.ball)
  let bytes := writeByte bytes 0x84 (p.met_level ||| (p.trainer_gender <<< 7) % 2 ^ 8)
  let bytes := writeByte bytes 0x85 p.encounter_type
  let bytes := writeByte bytes 0x86 (if p.is_gen5 = false then p.ball else 0)
  let bytes := writeByte bytes 0x87 p.performance
  -- 0x88 - End of "boxed" Pokémon data.
  let bytes := writeByte bytes 0x8C p.level
  -- Check if the Pokémon has stats:
  Option.bind (match p.stats with
    | some stats => some stats
    | none => p.generate_stats t) fun stats =>
  -- Set the current HP from the maximum HP:
  let bytes := writeBytes bytes 0x8E (u16ToLe stats.hp)
  -- Copy the stats:
  let bytes := writeBytes bytes 0x90 (u16ToLe stats.hp ++ u16ToLe stats.atk ++
    u16ToLe stats.def_ ++ u16ToLe stats.spe ++ u16ToLe stats.spa ++ u16ToLe stats.spd)
  some bytes

/-- `Pokemon::serialize`: the field-by-field fill (`serializeBody`)
followed by the function's final step — compute the checksum over
`0x08..0x88` of the filled record and store it little-endian at
`0x06..0x08`. -/
def Pokemon.serialize (t : Tables) (p : Pokemon) : Option Buffer :=
  (p.serializeBody t).map fun bytes => writeBytes bytes 0x06 (u16ToLe (checksumOf bytes))

/-! ## Deserialization (`Pokemon::deserialize`) -/

/-- Block A of `Pokemon::deserialize` (offsets 0x00..0x28): PID (and
nature, via `set_pid`), flags, stored checksum, species, held item,
trainer ids, experience, friendship, ability, markings, language, EVs,
contest stats and the Sinnoh ribbons. -/
def Pokemon.deserializeBlockA (t : Tables) (bytes : Buffer) (pkm : Pokemon) :
    Option Pokemon :=
  let species_id := readU16 bytes 0x08
  Option.bind (pkm.set_pid t (readU32 bytes 0x00)) fun pkm => -- Also sets the nature.
  let pkm := { pkm with
    encryption_bypass := bytes.data 0x04 &&& 0x03 != 0,
    bad_egg_flag := bytes.data 0x04 &&& 0x02 != 0,
    original_checksum := readU16 bytes 0x06 }
  Option.bind
    (if t.speciesValid species_id then some { pkm with species := species_id } else none)
    fun pkm =>
  let item_id := readU16 bytes 0x0A
  Option.bind
    (if pkm.is_gen5 then
      if t.itemsGen5Valid item_id then some { pkm with held_item := item_id } else none
    else
      if t.itemsGen4Valid item_id then some { pkm with held_item := item_id } else none)
    fun pkm =>
  let pkm := { pkm with
    trainer_id := readU16 bytes 0x0C,
    trainer_secret_id := readU16 bytes 0x0E,
    experience := readU32 bytes 0x10,
    friendship := bytes.data 0x14 }
  Option.bind
    (if t.abilitiesValid (bytes.data 0x15) then some { pkm with ability := bytes.data 0x15 }
    else none)
    fun pkm =>
  let pkm := { pkm with markings := bytes.data 0x16 }
  Option.bind
    (if Language.isValid (bytes.data 0x17) then some { pkm with language := bytes.data 0x17 }
    else none)
    fun pkm =>
  let pkm := { pkm with
    evs := ⟨bytes.data 0x18, bytes.data 0x19, bytes.data 0x1A, bytes.data 0x1B,
      bytes.data 0x1C, bytes.data 0x1D⟩,
    contest_stats := ⟨bytes.data 0x1E, bytes.data 0x1F, bytes.data 0x20, bytes.data 0x21,
      bytes.data 0x22, bytes.data 0x23⟩,
    sinnoh_ribbons := [bytes.data 0x24, bytes.data 0x25, bytes.data 0x26, bytes.data 0x27,
      bytes.data 0x60, bytes.data 0x61, bytes.data 0x62, bytes.data 0x63] }
  some pkm

/-- Block B of `Pokemon::deserialize` (offsets 0x28..0x48): moves, PPs,
PP-ups, packed IVs, egg/nickname flags, Hoenn ribbons, fateful, gender,
form, shiny leaves (Gen 4) or nature (Gen 5).  Note that `is_egg` is
read from byte `0x3C` (see claim C1). -/
def Pokemon.deserializeBlockB (t : Tables) (bytes : Buffer) (pkm : Pokemon) :
    Option Pokemon :=
  let move1_id := readU16 bytes 0x28
  let move2_id := readU16 bytes 0x2A
  let move3_id := readU16 bytes 0x2C
  let move4_id := readU16 bytes 0x2E
  Option.bind
    (if t.movesValid move1_id && t.movesValid move2_id && t.movesValid move3_id &&
        t.movesValid move4_id then
      some { pkm with moves := [move1_id, move2_id, move3_id, move4_id] }
    else none)
    fun pkm =>
  let iv_bytes := readU32 bytes 0x38
  let pkm := { pkm with
    move_pps := [bytes.data 0x30, bytes.data 0x31, bytes.data 0x32, bytes.data 0x33],
    move_pp_ups := [bytes.data 0x34, bytes.data 0x35, bytes.data 0x36, bytes.data 0x37],
    ivs := ⟨iv_bytes &&& 0x1F, iv_bytes >>> 5 &&& 0x1F, iv_bytes >>> 10 &&& 0x1F,
      iv_bytes >>> 20 &&& 0x1F, iv_bytes >>> 25 &&& 0x1F, iv_bytes >>> 15 &&& 0x1F⟩,
    is_egg := bytes.data 0x3C &&& 0x40 != 0,
    is_nicknamed := bytes.data 0x3B &&& 0x80 != 0,
    hoenn_ribbons := [bytes.data 0x3C &&& 0x3F, bytes.data 0x3D, bytes.data 0x3E,
      bytes.data 0x3F],
    fateful := bytes.data 0x40 &&& 0x01 != 0 }
  Option.bind
    (if Gender.isValid (bytes.data 0x40 >>> 1 &&& 0x03) then
      some { pkm with gender := bytes.data 0x40 >>> 1 &&& 0x03 }
    else none)
    fun pkm =>
  let pkm := { pkm with form_id := bytes.data 0x40 >>> 3 }
  Option.bind
    (if pkm.is_gen5 = false then
      -- Gen 4 stores shiny leaves in 0x41:
      let leaf_bytes := bytes.data 0x41
      some { pkm with shiny_leaves := ⟨leaf_bytes &&& 0x01 != 0, leaf_bytes &&& 0x02 != 0,
        leaf_bytes &&& 0x04 != 0, leaf_bytes &&& 0x08 != 0, leaf_bytes &&& 0x10 != 0,
        leaf_bytes &&& 0x20 != 0⟩ }
    else
      -- Gen 5 stores the nature ID in 0x41:
      (natureFromId t (bytes.data 0x41)).map fun n => { pkm with nature := n })
    fun pkm =>
  some pkm

/-- The egg- and met-location decoding of `Pokemon::deserialize`: a
non-zero Platinum/HGSS slot (0x44 resp. 0x46) is always a Gen-4
location; a zero one defers to the DP/Gen-5 slot (0x7E resp. 0x80),
dispatched on `is_gen5`. -/
def Pokemon.deserializeLocations (bytes : Buffer) (pkm : Pokemon) : Option Pokemon :=
  let egg_loc_plathgss := readU16 bytes 0x44
  let egg_loc_others := readU16 bytes 0x7E
  Option.bind
    (if egg_loc_plathgss ≠ 0 then
      if Gen4Location.isValid egg_loc_plathgss then
        some { pkm with egg_location := Location.gen4 egg_loc_plathgss }
      else none
    else if pkm.is_gen5 = false then
      if Gen4Location.isValid egg_loc_others then
        some { pkm with egg_location := Location.gen4 egg_loc_others }
      else none
    else
      if Gen5Location.isValid egg_loc_others then
        some { pkm with egg_location := Location.gen5 egg_loc_others }
      else none)
    fun pkm =>
  let met_loc_plathgss := readU16 bytes 0x46
  let met_loc_others := readU16 bytes 0x80
  Option.bind
    (if met_loc_plathgss ≠ 0 then
      if Gen4Location.isValid met_loc_plathgss then
        some { pkm with met_location := Location.gen4 met_loc_plathgss }
      else none
    else if pkm.is_gen5 = false then
      if Gen4Location.isValid met_loc_others then
        some { pkm with met_location := Location.gen4 met_loc_others }
      else none
    else
      if Gen5Location.isValid met_loc_others then
        some { pkm with met_location := Location.gen5 met_loc_others }
      else none)
    fun pkm =>
  some pkm

/-- Block C of `Pokemon::deserialize` (offsets 0x48..0x68): the nickname
(generation-dispatched decoding), the origin game, and the second half of
the Sinnoh ribbons. -/
def Pokemon.deserializeBlockC (t : Tables) (bytes : Buffer) (pkm : Pokemon) :
    Option Pokemon :=
  Option.bind
    (if pkm.is_gen5 = false then
      (decode_name_gen4 t (bytes.slice 0x48 0x5E)).map fun nm => { pkm with name := nm }
    else
      (decode_name_gen5 (bytes.slice 0x48 0x5E)).map fun nm => { pkm with name := nm })
    fun pkm =>
  Option.bind
    (if Game.isValid (bytes.data 0x5F) then some { pkm with origin_game := bytes.data 0x5F }
    else none)
    fun pkm =>
  let pkm := { pkm with sinnoh_ribbons := pkm.sinnoh_ribbons.take 4 ++
    [bytes.data 0x60, bytes.data 0x61, bytes.data 0x62, bytes.data 0x63] }
  some pkm

/-- Block D of `Pokemon::deserialize` (offsets 0x68..0x88): the trainer
name, the egg and met dates, pokérus, the ball (with the HGSS alias at
0x86 taking precedence when non-zero), met level, trainer gender,
encounter type and performance. -/
def Pokemon.deserializeBlockD (t : Tables) (bytes : Buffer) (pkm : Pokemon) :
    Option Pokemon :=
  Option.bind
    (if pkm.is_gen5 = false then
      (decode_name_gen4 t (bytes.slice 0x68 0x78)).map fun nm =>
        { pkm with trainer_name := nm }
    else
      (decode_name_gen5 (bytes.slice 0x68 0x78)).map fun nm =>
        { pkm with trainer_name := nm })
    fun pkm =>
  let pkm := { pkm with
    egg_date := fromYmdOpt (bytes.data 0x78 + 2000) (bytes.data 0x79) (bytes.data 0x7A) }
  Option.bind (fromYmdOpt (bytes.data 0x7B + 2000) (bytes.data 0x7C) (bytes.data 0x7D))
    fun met_date =>
  let pkm := { pkm with met_date := met_date, pokerus := bytes.data 0x82 }
  -- Handle HGSS ball particularities:
  let ball := bytes.data 0x83
  let hgss_ball := bytes.data 0x86
  Option.bind
    (if pkm.is_gen5 = false ∧ hgss_ball ≠ 0 then
      if Pokeball.isValid hgss_ball then some { pkm with ball := hgss_ball } else none
    else
      if Pokeball.isValid ball then some { pkm with ball := ball } else none)
    fun pkm =>
  let pkm := { pkm with met_level := bytes.data 0x84 &&& 0x7F }
  Option.bind
    (if Gender.isValid (bytes.data 0x84 >>> 7 &&& 0x01) then
      some { pkm with trainer_gender := bytes.data 0x84 >>> 7 &&& 0x01 }
    else none)
    fun pkm =>
  let pkm := { pkm with encounter_type := bytes.data 0x85, performance := bytes.data 0x87 }
  some pkm

/-- The party tail of `Pokemon::deserialize`: the level at `0x8C` — an
out-of-bounds index (a Rust panic, embedded as `none`) for a 136-byte
boxed record — and the stats block at `0x90..0x9C` for party-length
records. -/
def Pokemon.deserializeTail (bytes : Buffer) (pkm : Pokemon) : Option Pokemon :=
  Option.bind
    (if 0x8C < bytes.size then some { pkm with level := bytes.data 0x8C } else none)
    fun pkm =>
  -- Check if the Pokémon has stats:
  let pkm :=
    if bytes.size = GEN4_PKM_LEN ∨ bytes.size = GEN5_PKM_LEN then
      -- Ignore current HP.
      { pkm with stats := some ⟨readU16 bytes 0x90, readU16 bytes 0x92, readU16 bytes 0x94,
        readU16 bytes 0x98, readU16 bytes 0x9A, readU16 bytes 0x96⟩ }
    else { pkm with stats := none }
  some pkm

/-- `Pokemon::deserialize`: rebuild a `Pokemon` from a 136-, 236- or
220-byte record, mirroring the source's sequential field assignments
starting from `Pokemon::default()` (the function is staged here by the
source's own block comments).  The entry `assert!` on the size and every
`should_be_some!`/`should_be_ok!` lookup failure are the `none` cases. -/
def Pokemon.deserialize (t : Tables) (bytes : Buffer) : Option Pokemon :=
  if ¬(bytes.size = BOXED_PKM_LEN ∨ bytes.size = GEN4_PKM_LEN ∨ bytes.size = GEN5_PKM_LEN) then
    none
  else
    let species_id := readU16 bytes 0x08
    let pkm := Pokemon.default
    let pkm := { pkm with
      is_gen5 := decide (bytes.size = GEN5_PKM_LEN) || decide (493 < species_id) }
    Option.bind (Pokemon.deserializeBlockA t bytes pkm) fun pkm =>
    Option.bind (Pokemon.deserializeBlockB t bytes pkm) fun pkm =>
    Option.bind (Pokemon.deserializeLocations bytes pkm) fun pkm =>
    Option.bind (Pokemon.deserializeBlockC t bytes pkm) fun pkm =>
    Option.bind (Pokemon.deserializeBlockD t bytes pkm) fun pkm =>
    Pokemon.deserializeTail bytes pkm

/-! ## Lemmas about buffer writes and the checksum -/

@[simp]
theorem writeByte_size (b : Buffer) (off v : Nat) : (writeByte b off v).size = b.size := rfl

@[simp]
theorem writeBytes_size (b : Buffer) (off : Nat) (src : List Nat) :
    (writeBytes b off src).size = b.size := rfl

theorem writeByte_data (b : Buffer) (off v i : Nat) :
    (writeByte b off v).data i = if i = off then v else b.data i := rfl

theorem writeBytes_data (b : Buffer) (off : Nat) (src : List Nat) (i : Nat) :
    (writeBytes b off src).data i =
      if off ≤ i ∧ i < off + src.length then src.getD (i - off) 0 else b.data i := rfl

@[simp]
theorem u16ToLe_length (v : Nat) : (u16ToLe v).length = 2 := rfl

@[simp]
theorem u32ToLe_length (v : Nat) : (u32ToLe v).length = 4 := rfl

@[simp]
theorem listResize_length (l : List Nat) (n : Nat) : (listResize l n).length = n := by
  simp only [listResize, List.length_append, List.length_take, List.length_replicate]
  omega

theorem foldl_mod_bound (f : Nat → Nat) :
    ∀ (l : List Nat) (acc : Nat), acc < 2 ^ 16 →
      l.foldl (fun a i => (a + f i) % 2 ^ 16) acc < 2 ^ 16 := by
  intro l
  induction l with
  | nil => intro acc h; exact h
  | cons x xs ih =>
    intro acc _
    exact ih _ (Nat.mod_lt _ (by norm_num))

theorem checksumOf_lt (b : Buffer) : checksumOf b < 2 ^ 16 :=
  foldl_mod_bound (fun i => readU16 b (0x08 + 2 * i)) (List.range 64) 0 (by norm_num)

/-- The checksum only looks at bytes `0x08..0x88`. -/
theorem checksumOf_congr (b1 b2 : Buffer)
    (h : ∀ i, 0x08 ≤ i → i < 0x88 → b1.data i = b2.data i) :
    checksumOf b1 = checksumOf b2 := by
  unfold checksumOf
  apply List.foldl_ext
  intro a i hi
  have hi64 : i < 64 := List.mem_range.mp hi
  rw [readU16, readU16, h (0x08 + 2 * i) (by omega) (by omega),
    h (0x08 + 2 * i + 1) (by omega) (by omega)]

/-- Claim C3 (confirmed): in every record produced by
`Pokemon::serialize`, the `u16` stored little-endian at `0x06` equals
the wrapping 16-bit sum of the little-endian `u16` words at
`0x08..0x88` of that same record. -/
theorem c3_checksum_consistency (t : Tables) (p : Pokemon) (out : Buffer)
    (h : p.serialize t = some out) :
    readU16 out 0x06 = checksumOf out := by
  unfold Pokemon.serialize at h
  cases hb : p.serializeBody t with
  | none => rw [hb] at h; exact absurd h (by simp)
  | some body =>
    rw [hb] at h
    have hout : out = writeBytes body 0x06 (u16ToLe (checksumOf body)) := by
      cases h
      rfl
    subst hout
    have hc := checksumOf_lt body
    have hcongr : checksumOf (writeBytes body 0x06 (u16ToLe (checksumOf body))) =
        checksumOf body := by
      apply checksumOf_congr
      intro i h1 h2
      rw [writeBytes_data]
      rw [if_neg (by simp only [u16ToLe_length]; omega)]
    rw [hcongr]
    rw [readU16, writeBytes_data, writeBytes_data]
    rw [if_pos (by simp only [u16ToLe_length]; omega),
      if_pos (by simp only [u16ToLe_length]; omega)]
    have e0 : (u16ToLe (checksumOf body)).getD (0x06 - 0x06) 0 = checksumOf body % 2 ^ 8 := rfl
    have e1 : (u16ToLe (checksumOf body)).getD (0x06 + 1 - 0x06) 0 =
        checksumOf body / 2 ^ 8 % 2 ^ 8 := rfl
    rw [e0, e1]
    omega

/-! ## Concrete tables and records for the witnesses -/

/-- Concrete tables used by the witnesses and counterexamples: every
name-table id is valid, one base-stats row, a cubic level curve, and a
charmap carrying the single pair (code `0x0001` ↔ scalar 65, `'A'`). -/
def tablesW : Tables where
  charmap := fun code => if code = 1 then some 65 else none
  charmapRev := fun chr => if chr = 65 then some 1 else none
  speciesValid := fun _ => true
  itemsGen4Valid := fun _ => true
  itemsGen5Valid := fun _ => true
  abilitiesValid := fun _ => true
  movesValid := fun _ => true
  baseStats := fun _ => some [3, 45, 49, 49, 65, 65, 45]
  levelCurves := fun lvl _ => lvl * lvl * lvl
  natureIncreased := fun _ => Stat.Atk
  natureDecreased := fun _ => Stat.Def

/-- A concrete well-formed Gen-4 party Pokémon: empty names, benign
defaults, valid enum values, stats present. -/
def pokemonW : Pokemon := { Pokemon.default with
  species := 25
  nature := ⟨0, Stat.Atk, Stat.Def⟩
  met_date := (2025, 10, 12)
  stats := some ⟨90, 55, 40, 50, 50, 90⟩ }

/-- The record `pokemonW` serializes to. -/
def c3Out : Buffer := (pokemonW.serialize tablesW).getD (Buffer.zeros 0)

/-- Claim C3, witness: the checksum law at the concrete serialized
record of `pokemonW`. -/
theorem c3_checksum_consistency_witness :
    pokemonW.serialize tablesW = some c3Out ∧ readU16 c3Out 0x06 = checksumOf c3Out :=
  ⟨rfl, c3_checksum_consistency tablesW pokemonW c3Out rfl⟩

/-- `pokemonW` with no stored stats, so serialization takes the
`generate_stats` path. -/
def p10 : Pokemon := { pokemonW with stats := none }

/-- The record `p10` serializes to. -/
def c10Out : Buffer := (p10.serialize tablesW).getD (Buffer.zeros 0)

set_option maxHeartbeats 3200000 in
/-- Claim C10 (confirmed): `Pokemon::serialize` never produces the
136-byte boxed form — the output is always the full party-length buffer
(`0xEC` bytes for Gen 4, `0xDC` for Gen 5) — and the stats block at
`0x90..0x9C` (order HP, Atk, Def, Spe, SpA, SpD) carries the stored
stats when present and the `generate_stats` synthesis (from base stats,
level, IVs, EVs and nature) when the `stats` field is `None`. -/
theorem c10_serialize_always_party (t : Tables) (p : Pokemon) (out : Buffer)
    (h : p.serialize t = some out) :
    out.size = (if p.is_gen5 then GEN5_PKM_LEN else GEN4_PKM_LEN) ∧
    out.size ≠ BOXED_PKM_LEN ∧
    ∃ s, (p.stats = some s ∨ (p.stats = none ∧ p.generate_stats t = some s)) ∧
      readU16 out 0x90 = s.hp % 2 ^ 16 ∧ readU16 out 0x92 = s.atk % 2 ^ 16 ∧
      readU16 out 0x94 = s.def_ % 2 ^ 16 ∧ readU16 out 0x96 = s.spe % 2 ^ 16 ∧
      readU16 out 0x98 = s.spa % 2 ^ 16 ∧ readU16 out 0x9A = s.spd % 2 ^ 16 := by
  unfold Pokemon.serialize at h
  cases hb : p.serializeBody t with
  | none => rw [hb] at h; exact absurd h (by simp)
  | some body =>
    rw [hb] at h
    have hout : out = writeBytes body 0x06 (u16ToLe (checksumOf body)) := by cases h; rfl
    subst hout
    have hstat : ∀ (s : StatsFeature),
        (match p.stats with
          | some stats => some stats
          | none => p.generate_stats t) = some s →
        p.stats = some s ∨ (p.stats = none ∧ p.generate_stats t = some s) := by
      intro s hs
      cases hps : p.stats with
      | some u =>
        rw [hps] at hs
        exact Or.inl hs
      | none =>
        rw [hps] at hs
        exact Or.inr ⟨rfl, hs⟩
    cases hg : p.is_gen5 with
    | false =>
      unfold Pokemon.serializeBody at hb
      simp only [hg, eq_self_iff_true, if_true, reduceCtorEq, if_false, Option.bind_eq_some,
        Option.some.injEq] at hb
      obtain ⟨enc, henc, tenc, htenc, locb, ⟨el, hel, ml, hml, hlocb⟩, st, hs, hbody⟩ := hb
      subst hbody
      subst hlocb
      refine ⟨?_, ?_, st, hstat st hs, ?_, ?_, ?_, ?_, ?_, ?_⟩
      · cases hed : p.egg_date with
        | none =>
          dsimp only
          simp only [writeBytes_size, writeByte_size]
          rfl
        | some ymd =>
          obtain ⟨y, m, d⟩ := ymd
          dsimp only
          simp only [writeBytes_size, writeByte_size]
          rfl
      · cases hed : p.egg_date with
        | none =>
          dsimp only
          simp only [writeBytes_size, writeByte_size]
          decide
        | some ymd =>
          obtain ⟨y, m, d⟩ := ymd
          dsimp only
          simp only [writeBytes_size, writeByte_size]
          decide
      all_goals
        simp only [readU16, writeBytes_data, List.length_append, u16ToLe_length]
        norm_num
        first
        | (show st.hp % 2 ^ 8 + 2 ^ 8 * (st.hp / 2 ^ 8 % 2 ^ 8) = st.hp % 2 ^ 16
           omega)
        | (show st.atk % 2 ^ 8 + 2 ^ 8 * (st.atk / 2 ^ 8 % 2 ^ 8) = st.atk % 2 ^ 16
           omega)
        | (show st.def_ % 2 ^ 8 + 2 ^ 8 * (st.def_ / 2 ^ 8 % 2 ^ 8) = st.def_ % 2 ^ 16
           omega)
        | (show st.spe % 2 ^ 8 + 2 ^ 8 * (st.spe / 2 ^ 8 % 2 ^ 8) = st.spe % 2 ^ 16
           omega)
        | (show st.spa % 2 ^ 8 + 2 ^ 8 * (st.spa / 2 ^ 8 % 2 ^ 8) = st.spa % 2 ^ 16
           omega)
        | (show st.spd % 2 ^ 8 + 2 ^ 8 * (st.spd / 2 ^ 8 % 2 ^ 8) = st.spd % 2 ^ 16
           omega)
    | true =>
      unfold Pokemon.serializeBody at hb
      simp only [hg, eq_self_iff_true, if_true, reduceCtorEq, if_false, Option.bind_eq_some,
        Option.some.injEq] at hb
      obtain ⟨enc, henc, tenc, htenc, locb, hlocb, st, hs, hbody⟩ := hb
      subst hbody
      subst hlocb
      refine ⟨?_, ?_, st, hstat st hs, ?_, ?_, ?_, ?_, ?_, ?_⟩
      · cases hed : p.egg_date with
        | none =>
          dsimp only
          simp only [writeBytes_size, writeByte_size]
          rfl
        | some ymd =>
          obtain ⟨y, m, d⟩ := ymd
          dsimp only
          simp only [writeBytes_size, writeByte_size]
          rfl
      · cases hed : p.egg_date with
        | none =>
          dsimp only
          simp only [writeBytes_size, writeByte_size]
          decide
        | some ymd =>
          obtain ⟨y, m, d⟩ := ymd
          dsimp only
          simp only [writeBytes_size, writeByte_size]
          decide
      all_goals
        simp only [readU16, writeBytes_data, List.length_append, u16ToLe_length]
        norm_num
        first
        | (show st.hp % 2 ^ 8 + 2 ^ 8 * (st.hp / 2 ^ 8 % 2 ^ 8) = st.hp % 2 ^ 16
           omega)
        | (show st.atk % 2 ^ 8 + 2 ^ 8 * (st.atk / 2 ^ 8 % 2 ^ 8) = st.atk % 2 ^ 16
           omega)
        | (show st.def_ % 2 ^ 8 + 2 ^ 8 * (st.def_ / 2 ^ 8 % 2 ^ 8) = st.def_ % 2 ^ 16
           omega)
        | (show st.spe % 2 ^ 8 + 2 ^ 8 * (st.spe / 2 ^ 8 % 2 ^ 8) = st.spe % 2 ^ 16
           omega)
        | (show st.spa % 2 ^ 8 + 2 ^ 8 * (st.spa / 2 ^ 8 % 2 ^ 8) = st.spa % 2 ^ 16
           omega)
        | (show st.spd % 2 ^ 8 + 2 ^ 8 * (st.spd / 2 ^ 8 % 2 ^ 8) = st.spd % 2 ^ 16
           omega)


/-- Claim C10, witness: the party-size and stats-block law at the
concrete serialization of `p10` (whose `stats` field is `None`). -/
theorem c10_serialize_always_party_witness :
    c10Out.size = (if p10.is_gen5 then GEN5_PKM_LEN else GEN4_PKM_LEN) ∧
    c10Out.size ≠ BOXED_PKM_LEN ∧
    ∃ s, (p10.stats = some s ∨ (p10.stats = none ∧ p10.generate_stats tablesW = some s)) ∧
      readU16 c10Out 0x90 = s.hp % 2 ^ 16 ∧ readU16 c10Out 0x92 = s.atk % 2 ^ 16 ∧
      readU16 c10Out 0x94 = s.def_ % 2 ^ 16 ∧ readU16 c10Out 0x96 = s.spe % 2 ^ 16 ∧
      readU16 c10Out 0x98 = s.spa % 2 ^ 16 ∧ readU16 c10Out 0x9A = s.spd % 2 ^ 16 :=
  c10_serialize_always_party tablesW p10 c10Out rfl


/-- `pokemonW` with a met location beyond `DP_LAST_LOCATION`
(`PokeathlonDome`, id `0xE1`), exercising the DP clamp. -/
def p8 : Pokemon := { pokemonW with
  met_location := Location.gen4 Gen4Location.PokeathlonDome }

/-- The record `p8` serializes to. -/
def c8Out : Buffer := (p8.serialize tablesW).getD (Buffer.zeros 0)

set_option maxHeartbeats 3200000 in
/-- Claim C8 (confirmed): for a Gen-4 record whose egg/met locations are
Gen-4 location ids, `Pokemon::serialize` stores the original ids in the
Platinum/HGSS slots (`0x44..0x46` egg, `0x46..0x48` met) and the
DP-clamped ids — unchanged when `≤ DP_LAST_LOCATION`, else
`FarawayPlace` — in the DP slots (`0x7E..0x80` egg, `0x80..0x82`
met). -/
theorem c8_dp_location_clamp (t : Tables) (p : Pokemon) (out : Buffer) (el ml : Nat)
    (hgen : p.is_gen5 = false)
    (hegg : p.egg_location = Location.gen4 el)
    (hmet : p.met_location = Location.gen4 ml)
    (h : p.serialize t = some out) :
    readU16 out 0x44 = el % 2 ^ 16 ∧
    readU16 out 0x46 = ml % 2 ^ 16 ∧
    readU16 out 0x7E =
      (if el ≤ Gen4Location.DP_LAST_LOCATION then el else Gen4Location.FarawayPlace) % 2 ^ 16 ∧
    readU16 out 0x80 =
      (if ml ≤ Gen4Location.DP_LAST_LOCATION then ml else Gen4Location.FarawayPlace) % 2 ^ 16 := by
  unfold Pokemon.serialize at h
  cases hb : p.serializeBody t with
  | none => rw [hb] at h; exact absurd h (by simp)
  | some body =>
    rw [hb] at h
    have hout : out = writeBytes body 0x06 (u16ToLe (checksumOf body)) := by cases h; rfl
    subst hout
    unfold Pokemon.serializeBody at hb
    simp only [hgen, eq_self_iff_true, if_true, reduceCtorEq, if_false, Option.bind_eq_some,
      Option.some.injEq] at hb
    obtain ⟨enc, henc, tenc, htenc, locb, ⟨el2, hel2, ml2, hml2, hlocb⟩, st, hs, hbody⟩ := hb
    subst hbody
    rw [hegg] at hel2
    rw [hmet] at hml2
    dsimp only at hel2 hml2
    obtain rfl := Option.some.inj hel2
    obtain rfl := Option.some.inj hml2
    subst hlocb
    refine ⟨?_, ?_, ?_, ?_⟩
    all_goals
      cases hed : p.egg_date with
      | none =>
        dsimp only
        simp only [hegg, hmet, Location.toU16, readU16, writeBytes_data, writeByte_data,
          List.length_append, u16ToLe_length, listResize_length]
        norm_num
        first
        | (show el % 2 ^ 8 + 2 ^ 8 * (el / 2 ^ 8 % 2 ^ 8) = el % 2 ^ 16
           omega)
        | (show ml % 2 ^ 8 + 2 ^ 8 * (ml / 2 ^ 8 % 2 ^ 8) = ml % 2 ^ 16
           omega)
        | (generalize (if el ≤ Gen4Location.DP_LAST_LOCATION then el
              else Gen4Location.FarawayPlace) = v
           show v % 2 ^ 8 + 2 ^ 8 * (v / 2 ^ 8 % 2 ^ 8) = v % 2 ^ 16
           omega)
        | (generalize (if ml ≤ Gen4Location.DP_LAST_LOCATION then ml
              else Gen4Location.FarawayPlace) = v
           show v % 2 ^ 8 + 2 ^ 8 * (v / 2 ^ 8 % 2 ^ 8) = v % 2 ^ 16
           omega)
      | some ymd =>
        obtain ⟨y, m, d⟩ := ymd
        dsimp only
        simp only [hegg, hmet, Location.toU16, readU16, writeBytes_data, writeByte_data,
          List.length_append, u16ToLe_length, listResize_length]
        norm_num
        first
        | (show el % 2 ^ 8 + 2 ^ 8 * (el / 2 ^ 8 % 2 ^ 8) = el % 2 ^ 16
           omega)
        | (show ml % 2 ^ 8 + 2 ^ 8 * (ml / 2 ^ 8 % 2 ^ 8) = ml % 2 ^ 16
           omega)
        | (generalize (if el ≤ Gen4Location.DP_LAST_LOCATION then el
              else Gen4Location.FarawayPlace) = v
           show v % 2 ^ 8 + 2 ^ 8 * (v / 2 ^ 8 % 2 ^ 8) = v % 2 ^ 16
           omega)
        | (generalize (if ml ≤ Gen4Location.DP_LAST_LOCATION then ml
              else Gen4Location.FarawayPlace) = v
           show v % 2 ^ 8 + 2 ^ 8 * (v / 2 ^ 8 % 2 ^ 8) = v % 2 ^ 16
           omega)

/-- Claim C8, witness: the clamp law at the concrete serialization of
`p8` (egg location `0`, met location `PokeathlonDome`). -/
theorem c8_dp_location_clamp_witness :
    readU16 c8Out 0x44 = 0 % 2 ^ 16 ∧
    readU16 c8Out 0x46 = Gen4Location.PokeathlonDome % 2 ^ 16 ∧
    readU16 c8Out 0x7E =
      (if 0 ≤ Gen4Location.DP_LAST_LOCATION then 0 else Gen4Location.FarawayPlace) % 2 ^ 16 ∧
    readU16 c8Out 0x80 =
      (if Gen4Location.PokeathlonDome ≤ Gen4Location.DP_LAST_LOCATION
        then Gen4Location.PokeathlonDome else Gen4Location.FarawayPlace) % 2 ^ 16 :=
  c8_dp_location_clamp tablesW p8 c8Out 0 Gen4Location.PokeathlonDome rfl rfl rfl rfl


/-- A well-formed Gen-4 record with `is_egg := true` and every
deserialization-checked field in range. -/
def p1 : Pokemon := { pokemonW with
  is_egg := true
  ball := 4
  origin_game := 10
  language := 2 }

/-- Claim C1 (code_bug): the serialize-then-deserialize round trip does
NOT preserve every modeled field.  `Pokemon::serialize` stores `is_egg`
in bit 6 of byte `0x3B`, but `Pokemon::deserialize` reads it from bit 6
of byte `0x3C` (the first Hoenn-ribbon byte), so the concrete well-formed
record `p1` with `is_egg = true` round-trips — every validity check
passes — to a record with `is_egg = false`. -/
theorem c1_is_egg_round_trip_bug :
    p1.is_egg = true ∧
    ((p1.serialize tablesW).bind (Pokemon.deserialize tablesW)).map Pokemon.is_egg =
      some false :=
  ⟨rfl, rfl⟩


/-- Claim C9, counterexample: the byte slice `[1, 0, 1, 0]` decodes as
`[1, 1]` in 16-bit units — no unit is the terminator `0xFFFF` — yet
`decode_name_gen4` succeeds with the decoded string `[65, 65]` instead
of failing. -/
theorem c9_counterexample :
    toU16List [1, 0, 1, 0] = some [1, 1] ∧ (0xFFFF : Nat) ∉ [1, 1] ∧
    decode_name_gen4 tablesW [1, 0, 1, 0] = some [65, 65] :=
  ⟨rfl, by decide, rfl⟩

/-- Claim C9 (corrected): `decode_name_gen4` does NOT require a `0xFFFF`
terminator.  Running off the end of the byte slice is treated exactly
like hitting a terminator: any even-length slice of in-range, mapped,
non-terminator code units decodes successfully to its charmap image. -/
theorem c9_decode_name_gen4_no_terminator (t : Tables) (units : List Nat)
    (h : ∀ u ∈ units, u < 2 ^ 16 ∧ u ≠ 0xFFFF ∧ (t.charmap u).isSome) :
    decode_name_gen4 t (units.flatMap u16ToLe) =
      some (units.map fun u => (t.charmap u).getD 0) := by
  induction units with
  | nil => rfl
  | cons u us ih =>
    obtain ⟨hu, hne, hsome⟩ := h u (List.mem_cons_self u us)
    have hrest := fun v hv => h v (List.mem_cons_of_mem u hv)
    have hbytes : (u :: us).flatMap u16ToLe =
        u % 2 ^ 8 :: u / 2 ^ 8 % 2 ^ 8 :: us.flatMap u16ToLe := rfl
    rw [hbytes]
    have hcode : u % 2 ^ 8 + 2 ^ 8 * (u / 2 ^ 8 % 2 ^ 8) = u := by omega
    simp only [decode_name_gen4, hcode, hne, if_false]
    obtain ⟨chr, hchr⟩ := Option.isSome_iff_exists.mp hsome
    rw [hchr]
    simp only [ih hrest, List.map_cons, hchr, Option.getD_some]
    rfl

/-- Claim C9 (corrected), witness: the terminator-free decode law at the
concrete unit list `[1, 1]` under `tablesW`. -/
theorem c9_decode_name_gen4_no_terminator_witness :
    (∀ u ∈ [1, 1], u < 2 ^ 16 ∧ u ≠ 0xFFFF ∧ (tablesW.charmap u).isSome) ∧
    decode_name_gen4 tablesW ([1, 1].flatMap u16ToLe) =
      some ([1, 1].map fun u => (tablesW.charmap u).getD 0) :=
  ⟨by decide, c9_decode_name_gen4_no_terminator tablesW [1, 1] (by decide)⟩


/-! ## The flags byte at 0x04 (claim C7) -/

theorem deserializeBlockA_flags (t : Tables) (bytes : Buffer) (pkm pkm' : Pokemon)
    (h : Pokemon.deserializeBlockA t bytes pkm = some pkm') :
    pkm'.encryption_bypass = (bytes.data 0x04 &&& 0x03 != 0) ∧
    pkm'.bad_egg_flag = (bytes.data 0x04 &&& 0x02 != 0) := by
  unfold Pokemon.deserializeBlockA at h
  simp only [Option.bind_eq_some, Option.some.injEq] at h
  obtain ⟨a, ha, b, hb, c, hc, d, hd, e, he, hpkm⟩ := h
  subst hpkm
  repeat'
    first
    | split at hb
    | split at hc
    | split at hd
    | split at he
  all_goals
    first
    | exact Option.noConfusion hb
    | exact Option.noConfusion hc
    | exact Option.noConfusion hd
    | exact Option.noConfusion he
    | (cases hb; cases hc; cases hd; cases he; exact ⟨rfl, rfl⟩)

theorem deserializeBlockB_flags (t : Tables) (bytes : Buffer) (pkm pkm' : Pokemon)
    (h : Pokemon.deserializeBlockB t bytes pkm = some pkm') :
    pkm'.encryption_bypass = pkm.encryption_bypass ∧ pkm'.bad_egg_flag = pkm.bad_egg_flag := by
  unfold Pokemon.deserializeBlockB at h
  simp only [Option.bind_eq_some, Option.some.injEq] at h
  obtain ⟨a, ha, b, hb, c, hc, hpkm⟩ := h
  subst hpkm
  repeat'
    first
    | split at ha
    | split at hb
    | split at hc
  all_goals
    first
    | exact Option.noConfusion ha
    | exact Option.noConfusion hb
    | exact Option.noConfusion hc
    | (cases ha; cases hb; cases hc; exact ⟨rfl, rfl⟩)
    | (cases ha; cases hb
       obtain ⟨n, hn, rfl⟩ := Option.map_eq_some'.mp hc
       exact ⟨rfl, rfl⟩)

theorem deserializeLocations_flags (bytes : Buffer) (pkm pkm' : Pokemon)
    (h : Pokemon.deserializeLocations bytes pkm = some pkm') :
    pkm'.encryption_bypass = pkm.encryption_bypass ∧ pkm'.bad_egg_flag = pkm.bad_egg_flag := by
  unfold Pokemon.deserializeLocations at h
  simp only [Option.bind_eq_some, Option.some.injEq] at h
  obtain ⟨a, ha, b, hb, hpkm⟩ := h
  subst hpkm
  repeat'
    first
    | split at ha
    | split at hb
  all_goals
    first
    | exact Option.noConfusion ha
    | exact Option.noConfusion hb
    | (cases ha; cases hb; exact ⟨rfl, rfl⟩)

theorem deserializeBlockC_flags (t : Tables) (bytes : Buffer) (pkm pkm' : Pokemon)
    (h : Pokemon.deserializeBlockC t bytes pkm = some pkm') :
    pkm'.encryption_bypass = pkm.encryption_bypass ∧ pkm'.bad_egg_flag = pkm.bad_egg_flag := by
  unfold Pokemon.deserializeBlockC at h
  simp only [Option.bind_eq_some, Option.some.injEq] at h
  obtain ⟨a, ha, b, hb, hpkm⟩ := h
  subst hpkm
  split at ha
  all_goals
    obtain ⟨nm, hnm, rfl⟩ := Option.map_eq_some'.mp ha
    split at hb
    · cases hb; exact ⟨rfl, rfl⟩
    · exact Option.noConfusion hb

theorem deserializeBlockD_flags (t : Tables) (bytes : Buffer) (pkm pkm' : Pokemon)
    (h : Pokemon.deserializeBlockD t bytes pkm = some pkm') :
    pkm'.encryption_bypass = pkm.encryption_bypass ∧ pkm'.bad_egg_flag = pkm.bad_egg_flag := by
  unfold Pokemon.deserializeBlockD at h
  simp only [Option.bind_eq_some, Option.some.injEq] at h
  obtain ⟨a, ha, md, hmd, b, hb, c, hc, hpkm⟩ := h
  subst hpkm
  split at ha
  all_goals
    obtain ⟨nm, hnm, rfl⟩ := Option.map_eq_some'.mp ha
    repeat' split at hb
    all_goals
      first
      | exact Option.noConfusion hb
      | (cases hb
         split at hc
         · cases hc; exact ⟨rfl, rfl⟩
         · exact Option.noConfusion hc)

theorem deserializeTail_flags (bytes : Buffer) (pkm pkm' : Pokemon)
    (h : Pokemon.deserializeTail bytes pkm = some pkm') :
    pkm'.encryption_bypass = pkm.encryption_bypass ∧ pkm'.bad_egg_flag = pkm.bad_egg_flag := by
  unfold Pokemon.deserializeTail at h
  simp only [Option.bind_eq_some, Option.some.injEq] at h
  obtain ⟨a, ha, hpkm⟩ := h
  subst hpkm
  split at ha
  · cases ha
    constructor
    · split
      · rfl
      · rfl
    · split
      · rfl
      · rfl
  · exact Option.noConfusion ha

/-- `Pokemon::deserialize` reads both status flags from byte 0x04: the
encryption-bypass flag from its two low bits together and the bad-egg
flag from bit 1; no later deserialization stage touches them. -/
theorem deserialize_flags (t : Tables) (bytes : Buffer) (pkm : Pokemon)
    (h : Pokemon.deserialize t bytes = some pkm) :
    pkm.encryption_bypass = (bytes.data 0x04 &&& 0x03 != 0) ∧
    pkm.bad_egg_flag = (bytes.data 0x04 &&& 0x02 != 0) := by
  unfold Pokemon.deserialize at h
  split at h
  · exact Option.noConfusion h
  · simp only [Option.bind_eq_some] at h
    obtain ⟨a, hA, b, hB, l, hL, c, hC, d, hD, hT⟩ := h
    obtain ⟨hA1, hA2⟩ := deserializeBlockA_flags t bytes _ a hA
    obtain ⟨hB1, hB2⟩ := deserializeBlockB_flags t bytes a b hB
    obtain ⟨hL1, hL2⟩ := deserializeLocations_flags bytes b l hL
    obtain ⟨hC1, hC2⟩ := deserializeBlockC_flags t bytes l c hC
    obtain ⟨hD1, hD2⟩ := deserializeBlockD_flags t bytes c d hD
    obtain ⟨hT1, hT2⟩ := deserializeTail_flags bytes d pkm hT
    exact ⟨hT1.trans (hD1.trans (hC1.trans (hL1.trans (hB1.trans hA1)))),
      hT2.trans (hD2.trans (hC2.trans (hL2.trans (hB2.trans hA2))))⟩

/-- `p1` with the bad-egg flag raised (and the bypass flag down), so the
serialized flags byte at 0x04 is `0x02`. -/
def p7 : Pokemon := { p1 with bad_egg_flag := true }

/-- The record `p7` serializes to. -/
def c7Buf : Buffer := (p7.serialize tablesW).getD (Buffer.zeros 0)

/-- The Pokémon `c7Buf` deserializes to. -/
def c7Pkm : Pokemon := (Pokemon.deserialize tablesW c7Buf).getD Pokemon.default

/-- The encryption-bypass packaging of an all-zero boxed record. -/
def e7 : Buffer :=
  (to_encryption_bypass_data (Buffer.zeros BOXED_PKM_LEN)).getD (Buffer.zeros 0)

/-- Claim C7, counterexample: the record `c7Buf` has flags byte `0x02` —
bit 0 clear — yet deserializing it yields `encryption_bypass = true`,
because the source tests `& 0x03` rather than `& 0x01`. -/
theorem c7_counterexample :
    p7.serialize tablesW = some c7Buf ∧
    Pokemon.deserialize tablesW c7Buf = some c7Pkm ∧
    c7Buf.data 0x04 &&& 0x01 = 0 ∧
    c7Pkm.encryption_bypass = true :=
  ⟨rfl, rfl, rfl, rfl⟩

/-- Claim C7 (corrected): on deserialization the encryption-bypass flag
is `bytes[0x04] & 0x03 != 0` (either low bit, not just bit 0) while the
bad-egg flag is `bytes[0x04] & 0x02 != 0`; dually,
`to_encryption_bypass_data` shuffles the blocks without XOR-encrypting
them and ORs `0x03` (both low bits, not just bit 0) into the flags byte
at 0x04, leaving every other byte the plain shuffle of the input. -/
theorem c7_flags_byte_and_bypass_packaging (t : Tables) (bytes : Buffer) (pkm : Pokemon)
    (d e : Buffer) (i : Nat)
    (h : Pokemon.deserialize t bytes = some pkm)
    (hbp : to_encryption_bypass_data d = some e)
    (hi : i ≠ 0x04) :
    pkm.encryption_bypass = (bytes.data 0x04 &&& 0x03 != 0) ∧
    pkm.bad_egg_flag = (bytes.data 0x04 &&& 0x02 != 0) ∧
    e.size = d.size ∧
    e.data 0x04 = ((shuffle_blocks d (readU32 d 0x00)).data 0x04 ||| 0x03) ∧
    e.data i = (shuffle_blocks d (readU32 d 0x00)).data i := by
  obtain ⟨h1, h2⟩ := deserialize_flags t bytes pkm h
  unfold to_encryption_bypass_data at hbp
  split at hbp
  · exact Option.noConfusion hbp
  · obtain rfl := Option.some.inj hbp
    refine ⟨h1, h2, ?_, ?_, ?_⟩
    · rw [writeByte_size, shuffle_blocks_size]
    · rw [writeByte_data, if_pos rfl]
    · rw [writeByte_data, if_neg hi]

/-- Claim C7 (corrected), witness: the flag law at the concrete record
`c7Buf`/`c7Pkm` and the bypass-packaging law at the all-zero boxed
record, checked away from the flags byte at index `0x10`. -/
theorem c7_flags_byte_and_bypass_packaging_witness :
    c7Pkm.encryption_bypass = (c7Buf.data 0x04 &&& 0x03 != 0) ∧
    c7Pkm.bad_egg_flag = (c7Buf.data 0x04 &&& 0x02 != 0) ∧
    e7.size = (Buffer.zeros BOXED_PKM_LEN).size ∧
    e7.data 0x04 =
      ((shuffle_blocks (Buffer.zeros BOXED_PKM_LEN)
        (readU32 (Buffer.zeros BOXED_PKM_LEN) 0x00)).data 0x04 ||| 0x03) ∧
    e7.data 0x10 =
      (shuffle_blocks (Buffer.zeros BOXED_PKM_LEN)
        (readU32 (Buffer.zeros BOXED_PKM_LEN) 0x00)).data 0x10 :=
  c7_flags_byte_and_bypass_packaging tablesW c7Buf c7Pkm (Buffer.zeros BOXED_PKM_LEN) e7 0x10
    rfl rfl (by decide)

end GtsRs
